import Mathlib

/-!
# cpp-datetime: a shallow embedding of `datetime.cpp`

The C++ `int` is embedded as `Int`.  C++ `/` and `%` truncate toward zero and are embedded
as `Int.tdiv` and `Int.tmod`.  A thrown exception is an `Except.error`.  Reference parameters
(`int&`) become a returned component.

Each function that stores the result of `+`, `-` or `*` on values that are not bounded by a
validation comes twice.  The definition under the source name computes in unbounded `Int` and
describes the runs without signed overflow.  The definition with the suffix `_int` is the same
source text with every such operation reduced to the 32 bit range by `wrap_int`, which is
what the two's complement build of the program computes; statements about all `int` inputs
are made about the `_int` definitions.
-/

namespace CppDatetime

/-- Value of `std::numeric_limits<int>::max()` for a 32 bit `int`. -/
def INT_MAX : Int := 2147483647

/-- Exceptions the library throws, plus the one undefined behaviour the source can reach. -/
inductive Error where
  /-- Exception `std::invalid_argument` of `check_integer_range`: name must be between min and max. -/
  | range (name : String) (min max : Int)
  /-- Exception `std::invalid_argument("all arguments must have the same sign")`. -/
  | same_sign
  /-- Exception `std::logic_error("Invalid day of week calculation")`. -/
  | invalid_weekday
  /-- A read of `days_in_months` at an index outside `0..11`. -/
  | table_index (i : Int)
deriving DecidableEq, Repr

/-- The `enum class Weekday` of `datetime.h`. -/
inductive Weekday where
  | SUNDAY | MONDAY | TUESDAY | WEDNESDAY | THURSDAY | FRIDAY | SATURDAY
deriving DecidableEq, Repr

/-- Function `check_integer_range` (datetime.cpp 10-16). -/
def check_integer_range (value : Int) (name : String) (min max : Int) : Except Error Unit :=
  if value < min ∨ value > max then .error (.range name min max) else .ok ()

/-! ## TimeDiff -/

/-- The `class TimeDiff`: one private field. -/
structure TimeDiff where
  total_seconds_ : Int
deriving DecidableEq, Repr

namespace TimeDiff

/-- Constructor `TimeDiff::TimeDiff` (datetime.cpp 19-33). -/
def ctor (days hours minutes seconds : Int) : Except Error TimeDiff :=
  match check_integer_range hours "hour" (-23) 23 with
  | .error e => .error e
  | .ok _ =>
  match check_integer_range minutes "minute" (-59) 59 with
  | .error e => .error e
  | .ok _ =>
  match check_integer_range seconds "second" (-59) 59 with
  | .error e => .error e
  | .ok _ =>
  if (days < 0 ∧ (hours > 0 ∨ minutes > 0 ∨ seconds > 0)) ∨
     (days > 0 ∧ (hours < 0 ∨ minutes < 0 ∨ seconds < 0)) then
    .error .same_sign
  else
    .ok ⟨((days * 24 + hours) * 60 + minutes) * 60 + seconds⟩

def total_seconds (self : TimeDiff) : Int := self.total_seconds_

def total_minutes (self : TimeDiff) : Int := Int.tdiv self.total_seconds 60

def total_hours (self : TimeDiff) : Int := Int.tdiv self.total_seconds (60 * 60)

def days (self : TimeDiff) : Int := Int.tdiv self.total_seconds (24 * 60 * 60)

def hours (self : TimeDiff) : Int := Int.tmod (Int.tdiv self.total_seconds (60 * 60)) 24

def minutes (self : TimeDiff) : Int := Int.tmod (Int.tdiv self.total_seconds 60) 60

def seconds (self : TimeDiff) : Int := Int.tmod self.total_seconds 60

def operator_eq (self other : TimeDiff) : Bool := self.total_seconds == other.total_seconds

def operator_ne (self other : TimeDiff) : Bool := !(self.operator_eq other)

def operator_lt (self other : TimeDiff) : Bool := decide (self.total_seconds < other.total_seconds)

/-- Mutator `TimeDiff::add_seconds` (datetime.cpp 77-79). -/
def add_seconds (self : TimeDiff) (nb_seconds : Int) : TimeDiff :=
  ⟨self.total_seconds_ + nb_seconds⟩

/-- Operator `TimeDiff::operator+` (datetime.cpp 81-88). -/
def operator_add (self other : TimeDiff) : Except Error TimeDiff :=
  match ctor 0 0 0 0 with
  | .error e => .error e
  | .ok result => .ok (result.add_seconds (self.total_seconds + other.total_seconds))

/-- Operator `TimeDiff::operator-` (datetime.cpp 89-91). -/
def operator_sub (self other : TimeDiff) : Except Error TimeDiff :=
  match ctor (-other.days) (-other.hours) (-other.minutes) (-other.seconds) with
  | .error e => .error e
  | .ok negated => self.operator_add negated

end TimeDiff

/-! ## Time -/

/-- The `class Time`: one protected field. -/
structure Time where
  total_seconds_ : Int
deriving DecidableEq, Repr

namespace Time

/-- Constructor `Time::Time` (datetime.cpp 94-102). -/
def ctor (hour minute second : Int) : Except Error Time :=
  match check_integer_range hour "hour" 0 23 with
  | .error e => .error e
  | .ok _ =>
  match check_integer_range minute "minute" 0 59 with
  | .error e => .error e
  | .ok _ =>
  match check_integer_range second "second" 0 59 with
  | .error e => .error e
  | .ok _ => .ok ⟨(hour * 60 + minute) * 60 + second⟩

def get_total_seconds (self : Time) : Int := self.total_seconds_

def hour (self : Time) : Int := Int.tdiv self.get_total_seconds (60 * 60)

def minute (self : Time) : Int := Int.tmod (Int.tdiv self.get_total_seconds 60) 60

def second (self : Time) : Int := Int.tmod self.get_total_seconds 60

/-- Mutator `Time::add_seconds` (datetime.cpp 118-127), the non-overridden body. -/
def add_seconds (self : Time) (nb_seconds : Int) : Time :=
  let total_seconds_ := self.total_seconds_ + nb_seconds
  if total_seconds_ < 0 then
    ⟨0⟩
  else if total_seconds_ > 24 * 60 * 60 - 1 then
    ⟨24 * 60 * 60 - 1⟩
  else
    ⟨total_seconds_⟩

/-- Mutator `Time::add_minutes` (datetime.cpp 128-130) on an object of dynamic type `Time`. -/
def add_minutes (self : Time) (nb_minutes : Int) : Time :=
  self.add_seconds (nb_minutes * 60)

/-- Mutator `Time::add_hours` (datetime.cpp 131-133) on an object of dynamic type `Time`. -/
def add_hours (self : Time) (nb_hours : Int) : Time :=
  self.add_minutes (nb_hours * 60)

def operator_eq (self other : Time) : Bool := self.get_total_seconds == other.get_total_seconds

def operator_ne (self other : Time) : Bool := !(self.operator_eq other)

def operator_lt (self other : Time) : Bool :=
  decide (self.get_total_seconds < other.get_total_seconds)

/-- Operator `Time::operator-` (datetime.cpp 153-158). -/
def operator_sub (self other : Time) : Except Error TimeDiff :=
  let total_seconds := self.get_total_seconds - other.get_total_seconds
  TimeDiff.ctor 0 (Int.tdiv total_seconds (60 * 60))
    (Int.tmod (Int.tdiv total_seconds 60) 60) (Int.tmod total_seconds 60)

end Time

/-! ## Date -/

/-- The `class Date`: one private field. -/
structure Date where
  total_days_ : Int
deriving DecidableEq, Repr

namespace Date

/-- The static table `Date::days_in_months` (datetime.cpp 169). -/
def days_in_months : List Int := [31, 28, 31, 30, 31, 30, 31, 31, 30, 31, 30, 31]

/-- The read `days_in_months[i]`; outside the table the C++ behaviour is undefined. -/
def days_in_months_at (i : Int) : Except Error Int :=
  if 0 ≤ i then
    match days_in_months[i.toNat]? with
    | some v => .ok v
    | none => .error (.table_index i)
  else .error (.table_index i)

/-- Static `Date::is_leapyear(int)` (datetime.cpp 171-173). -/
def is_leapyear (year : Int) : Bool :=
  (Int.tmod year 4 == 0 && Int.tmod year 100 != 0) || (Int.tmod year 400 == 0)

def get_total_days (self : Date) : Int := self.total_days_

/-- Static `Date::days_in_month` (datetime.cpp 179-186). -/
def days_in_month (year month : Int) : Except Error Int :=
  if month = 2 ∧ is_leapyear year = true then .ok 29 else days_in_months_at (month - 1)

/-- The `while (true)` loop of `Date::calculate_year` (datetime.cpp 192-202); the pair is
(`year`, the reference parameter `total_days`) at the `break`. -/
def calculate_year_loop (year total_days : Int) : Int × Int :=
  if h : total_days < (if is_leapyear year = true then 366 else 365) then
    (year, total_days)
  else
    calculate_year_loop (year + 1) (total_days - (if is_leapyear year = true then 366 else 365))
termination_by total_days.toNat
decreasing_by
  split at h <;> simp <;> omega

/-- Static `Date::calculate_year` (datetime.cpp 188-205): returned year and updated `total_days`. -/
def calculate_year (total_days : Int) : Int × Int :=
  calculate_year_loop 0 total_days

/-- Accessor `Date::year` (datetime.cpp 207-212). -/
def year (self : Date) : Int := (calculate_year self.get_total_days).1

/-- The `while (true)` loop of `Date::calculate_month` (datetime.cpp 220-230); the pair is
(`month`, the reference parameter `total_days`) at the `break`. -/
def calculate_month_loop (year month total_days : Int) : Except Error (Int × Int) :=
  match h : (if month = 2 ∧ is_leapyear year = true then Except.ok 29
             else days_in_months_at (month - 1)) with
  | .error e => .error e
  | .ok days_in_month =>
    if total_days < days_in_month then
      .ok (month, total_days)
    else
      calculate_month_loop year (month + 1) (total_days - days_in_month)
termination_by (13 - month).toNat
decreasing_by
  have hle : month ≤ 12 := by
    split at h
    · omega
    · unfold days_in_months_at at h
      split at h
      · split at h
        · rename_i hv
          have hlt : (month - 1).toNat < days_in_months.length := by
            by_contra hc
            rw [List.getElem?_eq_none (by omega)] at hv
            exact absurd hv (by simp)
          simp [days_in_months] at hlt
          omega
        · exact absurd h (by simp)
      · exact absurd h (by simp)
  omega

/-- Static `Date::calculate_month` (datetime.cpp 214-233): returned month and updated `total_days`. -/
def calculate_month (total_days : Int) : Except Error (Int × Int) :=
  let r := calculate_year total_days
  calculate_month_loop r.1 1 r.2

/-- Accessor `Date::month` (datetime.cpp 236-241). -/
def month (self : Date) : Except Error Int :=
  match calculate_month self.get_total_days with
  | .error e => .error e
  | .ok r => .ok r.1

/-- Accessor `Date::day` (datetime.cpp 243-250). -/
def day (self : Date) : Except Error Int :=
  match calculate_month self.get_total_days with
  | .error e => .error e
  | .ok r => .ok (r.2 + 1)

/-- The `for` loop of the constructor (datetime.cpp 260-262), by remaining trip count:
started with `i = 0` it runs `month - 1` times (not at all when `month - 1 ≤ 0`). -/
def ctor_loop (year : Int) : Nat → Int → Int → Except Error Int
  | 0, _, total_days_ => .ok total_days_
  | n + 1, i, total_days_ =>
    match days_in_month year (i + 1) with
    | .error e => .error e
    | .ok v => ctor_loop year n (i + 1) (total_days_ + v)

/-- Constructor `Date::Date` (datetime.cpp 252-263). -/
def ctor (year month day : Int) : Except Error Date :=
  match check_integer_range year "year" 0 INT_MAX with
  | .error e => .error e
  | .ok _ =>
  match check_integer_range month "month" 1 12 with
  | .error e => .error e
  | .ok _ =>
  match days_in_month year month with
  | .error e => .error e
  | .ok last =>
  match check_integer_range day "day" 1 last with
  | .error e => .error e
  | .ok _ =>
  match ctor_loop year (month - 1).toNat 0
      (day - 1 + year * 365 + Int.tdiv year 4 - Int.tdiv year 100 + Int.tdiv year 400
        + (if is_leapyear year = true then 0 else 1)) with
  | .error e => .error e
  | .ok total_days_ => .ok ⟨total_days_⟩

/-- The local `weekday_calculation` of `Date::weekday` (datetime.cpp 272-281), as a function of
the values `year()`, `month()` and `day()` read at the top of the method. -/
def weekday_calculation (year0 month0 day : Int) : Int :=
  let month := if month0 < 3 then month0 + 12 else month0
  let year := if month0 < 3 then year0 - 1 else year0
  let century_year := Int.tmod year 100
  let century := Int.tdiv year 100
  day + Int.tdiv (13 * (month + 1)) 5 + century_year + Int.tdiv century_year 4
    + Int.tdiv century 4 + 5 * century

/-- The `switch (weekday_calculation % 7)` of `Date::weekday` (datetime.cpp 283-292). -/
def weekday_switch (weekday_calculation : Int) : Except Error Weekday :=
  let r := Int.tmod weekday_calculation 7
  if r = 0 then .ok .SATURDAY
  else if r = 1 then .ok .SUNDAY
  else if r = 2 then .ok .MONDAY
  else if r = 3 then .ok .TUESDAY
  else if r = 4 then .ok .WEDNESDAY
  else if r = 5 then .ok .THURSDAY
  else if r = 6 then .ok .FRIDAY
  else .error .invalid_weekday

/-- Accessor `Date::weekday` (datetime.cpp 265-293). -/
def weekday (self : Date) : Except Error Weekday :=
  match self.month with
  | .error e => .error e
  | .ok month =>
  match self.day with
  | .error e => .error e
  | .ok day => weekday_switch (weekday_calculation self.year month day)

/-- Mutator `Date::add_days` (datetime.cpp 299-301). -/
def add_days (self : Date) (nb_days : Int) : Date := ⟨self.total_days_ + nb_days⟩

/-- Method `Date::next` (datetime.cpp 303-309). -/
def next (self : Date) : Date := self.add_days 1

/-- Method `Date::prev` (datetime.cpp 310-316). -/
def prev (self : Date) : Date := self.add_days (-1)

/-- Operator `Date::operator==` (datetime.cpp 318-320): the three comparisons joined by `&&`,
evaluated left to right. -/
def operator_eq (self other : Date) : Except Error Bool :=
  if self.year = other.year then
    match self.month with
    | .error e => .error e
    | .ok m1 =>
    match other.month with
    | .error e => .error e
    | .ok m2 =>
    if m1 = m2 then
      match self.day with
      | .error e => .error e
      | .ok d1 =>
      match other.day with
      | .error e => .error e
      | .ok d2 => .ok (decide (d1 = d2))
    else .ok false
  else .ok false

/-- Operator `Date::operator!=` (datetime.cpp 321-323). -/
def operator_ne (self other : Date) : Except Error Bool :=
  match self.operator_eq other with
  | .error e => .error e
  | .ok r => .ok (!r)

/-- Operator `Date::operator<` (datetime.cpp 324-326). -/
def operator_lt (self other : Date) : Bool :=
  decide (self.get_total_days < other.get_total_days)

/-- Operator `Date::operator-` (datetime.cpp 337-339). -/
def operator_sub (self other : Date) : Except Error TimeDiff :=
  TimeDiff.ctor (self.get_total_days - other.get_total_days) 0 0 0

end Date

/-! ## DateTime -/

/-- The `class DateTime final : public Date, public Time`: the two base subobjects. -/
structure DateTime extends Date, Time
deriving DecidableEq, Repr

namespace DateTime

/-- Constructor `DateTime::DateTime(int, int, int, int, int, int)` (datetime.cpp 368-370). -/
def ctor (year month day : Int) (hour minute second : Int) : Except Error DateTime :=
  match Date.ctor year month day with
  | .error e => .error e
  | .ok dt =>
  match Time.ctor hour minute second with
  | .error e => .error e
  | .ok tm => .ok ⟨dt, tm⟩

/-- Constructor `DateTime::DateTime(const Date&, const Time&)` (datetime.cpp 371). -/
def ctor_pair (dt : Date) (tm : Time) : DateTime := ⟨dt, tm⟩

/-- Override `DateTime::add_seconds` (datetime.cpp 373-386). -/
def add_seconds (self : DateTime) (nb_seconds : Int) : DateTime :=
  let total_seconds_ := self.total_seconds_ + nb_seconds
  let seconds_in_day : Int := 24 * 60 * 60
  if total_seconds_ ≥ seconds_in_day then
    ⟨self.toDate.add_days (Int.tdiv total_seconds_ seconds_in_day),
     ⟨Int.tmod total_seconds_ seconds_in_day⟩⟩
  else if total_seconds_ < 0 then
    ⟨self.toDate.add_days (Int.tdiv total_seconds_ seconds_in_day - 1),
     ⟨seconds_in_day + Int.tmod total_seconds_ seconds_in_day⟩⟩
  else
    ⟨self.toDate, ⟨total_seconds_⟩⟩

/-- Inherited `Time::add_minutes` on a `DateTime`: the virtual call reaches the override. -/
def add_minutes (self : DateTime) (nb_minutes : Int) : DateTime :=
  self.add_seconds (nb_minutes * 60)

/-- Inherited `Time::add_hours` on a `DateTime`. -/
def add_hours (self : DateTime) (nb_hours : Int) : DateTime :=
  self.add_minutes (nb_hours * 60)

/-- Inherited `Date::add_days` on a `DateTime`. -/
def add_days (self : DateTime) (nb_days : Int) : DateTime :=
  ⟨self.toDate.add_days nb_days, self.toTime⟩

/-- Operator `DateTime::operator==` (datetime.cpp 391-393). -/
def operator_eq (self other : DateTime) : Except Error Bool :=
  match self.toDate.operator_eq other.toDate with
  | .error e => .error e
  | .ok r => if r = true then .ok (self.toTime.operator_eq other.toTime) else .ok false

/-- Operator `DateTime::operator!=` (datetime.cpp 394-396). -/
def operator_ne (self other : DateTime) : Except Error Bool :=
  match self.operator_eq other with
  | .error e => .error e
  | .ok r => .ok (!r)

/-- Operator `DateTime::operator<` (datetime.cpp 397-399). -/
def operator_lt (self other : DateTime) : Except Error Bool :=
  if self.toDate.operator_lt other.toDate = true then .ok true
  else
    match self.toDate.operator_eq other.toDate with
    | .error e => .error e
    | .ok r => if r = true then .ok (self.toTime.operator_lt other.toTime) else .ok false

/-- Operator `DateTime::operator-(const DateTime&)` (datetime.cpp 409-419). -/
def operator_sub (self other : DateTime) : Except Error TimeDiff :=
  match self.toDate.operator_sub other.toDate with
  | .error e => .error e
  | .ok date_timediff =>
  match self.toTime.operator_sub other.toTime with
  | .error e => .error e
  | .ok time_timediff =>
  if time_timediff.total_seconds < 0 then
    match TimeDiff.ctor 1 0 0 0 with
    | .error e => .error e
    | .ok one_day =>
    match date_timediff.operator_sub one_day with
    | .error e => .error e
    | .ok lhs =>
    match TimeDiff.ctor 1 0 0 0 with
    | .error e => .error e
    | .ok one_day2 =>
    match time_timediff.operator_add one_day2 with
    | .error e => .error e
    | .ok rhs => lhs.operator_add rhs
  else
    date_timediff.operator_add time_timediff

/-- Operator `DateTime::operator+(const TimeDiff&)` (datetime.cpp 420-430): the four mutator
calls on a copy, in source order. -/
def operator_add (self : DateTime) (other : TimeDiff) : DateTime :=
  (((self.add_days other.days).add_hours other.hours).add_minutes other.minutes).add_seconds
    other.seconds

/-- Operator `DateTime::operator-(const TimeDiff&)` (datetime.cpp 431-433). -/
def operator_sub_timediff (self : DateTime) (other : TimeDiff) : Except Error DateTime :=
  match TimeDiff.ctor (-other.days) (-other.hours) (-other.minutes) (-other.seconds) with
  | .error e => .error e
  | .ok negated => .ok (self.operator_add negated)

end DateTime

/-! ## The same operations in 32 bit `int` arithmetic -/

/-- Value of `std::numeric_limits<int>::min()` for a 32 bit `int`. -/
def INT_MIN : Int := -2147483648

/-- Reduction of an integer to the 32 bit two's complement range `[INT_MIN, INT_MAX]`. -/
def wrap_int (x : Int) : Int := (x + 2147483648) % 4294967296 - 2147483648

/-- The `int` sum `a + b`. -/
def iadd (a b : Int) : Int := wrap_int (a + b)

/-- The `int` difference `a - b`. -/
def isub (a b : Int) : Int := wrap_int (a - b)

/-- The `int` product `a * b`. -/
def imul (a b : Int) : Int := wrap_int (a * b)

/-- The `int` negation `-a`. -/
def ineg (a : Int) : Int := wrap_int (-a)

namespace TimeDiff

/-- Constructor `TimeDiff::TimeDiff` (datetime.cpp 19-33) with the `int` initializer
`((days * 24 + hours) * 60 + minutes) * 60 + seconds`. -/
def ctor_int (days hours minutes seconds : Int) : Except Error TimeDiff :=
  match check_integer_range hours "hour" (-23) 23 with
  | .error e => .error e
  | .ok _ =>
  match check_integer_range minutes "minute" (-59) 59 with
  | .error e => .error e
  | .ok _ =>
  match check_integer_range seconds "second" (-59) 59 with
  | .error e => .error e
  | .ok _ =>
  if (days < 0 ∧ (hours > 0 ∨ minutes > 0 ∨ seconds > 0)) ∨
     (days > 0 ∧ (hours < 0 ∨ minutes < 0 ∨ seconds < 0)) then
    .error .same_sign
  else
    .ok ⟨iadd (imul (iadd (imul (iadd (imul days 24) hours) 60) minutes) 60) seconds⟩

/-- Mutator `TimeDiff::add_seconds` (datetime.cpp 77-79) on `int`. -/
def add_seconds_int (self : TimeDiff) (nb_seconds : Int) : TimeDiff :=
  ⟨iadd self.total_seconds_ nb_seconds⟩

/-- Operator `TimeDiff::operator+` (datetime.cpp 81-88) on `int`. -/
def operator_add_int (self other : TimeDiff) : Except Error TimeDiff :=
  match ctor_int 0 0 0 0 with
  | .error e => .error e
  | .ok result => .ok (result.add_seconds_int (iadd self.total_seconds other.total_seconds))

/-- Operator `TimeDiff::operator-` (datetime.cpp 89-91) on `int`. -/
def operator_sub_int (self other : TimeDiff) : Except Error TimeDiff :=
  match ctor_int (ineg other.days) (ineg other.hours) (ineg other.minutes)
      (ineg other.seconds) with
  | .error e => .error e
  | .ok negated => self.operator_add_int negated

end TimeDiff

/-- Operator `Time::operator-` (datetime.cpp 153-158) on `int`. -/
def Time.operator_sub_int (self other : Time) : Except Error TimeDiff :=
  let total_seconds := isub self.get_total_seconds other.get_total_seconds
  TimeDiff.ctor_int 0 (Int.tdiv total_seconds (60 * 60))
    (Int.tmod (Int.tdiv total_seconds 60) 60) (Int.tmod total_seconds 60)

namespace Date

/-- The `for` loop of the constructor (datetime.cpp 260-262) with the `int` update
`total_days_ += days_in_month(year, i + 1)`, by remaining trip count. -/
def ctor_loop_int (year : Int) : Nat → Int → Int → Except Error Int
  | 0, _, total_days_ => .ok total_days_
  | n + 1, i, total_days_ =>
    match days_in_month year (i + 1) with
    | .error e => .error e
    | .ok v => ctor_loop_int year n (i + 1) (iadd total_days_ v)

/-- Constructor `Date::Date` (datetime.cpp 252-263) with the `int` day count. -/
def ctor_int (year month day : Int) : Except Error Date :=
  match check_integer_range year "year" 0 INT_MAX with
  | .error e => .error e
  | .ok _ =>
  match check_integer_range month "month" 1 12 with
  | .error e => .error e
  | .ok _ =>
  match days_in_month year month with
  | .error e => .error e
  | .ok last =>
  match check_integer_range day "day" 1 last with
  | .error e => .error e
  | .ok _ =>
  match ctor_loop_int year (month - 1).toNat 0
      (iadd (iadd (isub (iadd (iadd (isub day 1) (imul year 365)) (Int.tdiv year 4))
        (Int.tdiv year 100)) (Int.tdiv year 400))
        (if is_leapyear year = true then 0 else 1)) with
  | .error e => .error e
  | .ok total_days_ => .ok ⟨total_days_⟩

/-- Mutator `Date::add_days` (datetime.cpp 299-301) on `int`. -/
def add_days_int (self : Date) (nb_days : Int) : Date := ⟨iadd self.total_days_ nb_days⟩

/-- Method `Date::next` (datetime.cpp 303-309) on `int`. -/
def next_int (self : Date) : Date := self.add_days_int 1

/-- Operator `Date::operator-` (datetime.cpp 337-339) on `int`. -/
def operator_sub_int (self other : Date) : Except Error TimeDiff :=
  TimeDiff.ctor_int (isub self.get_total_days other.get_total_days) 0 0 0

end Date

namespace DateTime

/-- Constructor `DateTime::DateTime(int, int, int, int, int, int)` (datetime.cpp 368-370) with
the `int` day count. -/
def ctor_int (year month day : Int) (hour minute second : Int) : Except Error DateTime :=
  match Date.ctor_int year month day with
  | .error e => .error e
  | .ok dt =>
  match Time.ctor hour minute second with
  | .error e => .error e
  | .ok tm => .ok ⟨dt, tm⟩

/-- Operator `DateTime::operator-(const DateTime&)` (datetime.cpp 409-419) on `int`. -/
def operator_sub_int (self other : DateTime) : Except Error TimeDiff :=
  match self.toDate.operator_sub_int other.toDate with
  | .error e => .error e
  | .ok date_timediff =>
  match self.toTime.operator_sub_int other.toTime with
  | .error e => .error e
  | .ok time_timediff =>
  if time_timediff.total_seconds < 0 then
    match TimeDiff.ctor_int 1 0 0 0 with
    | .error e => .error e
    | .ok one_day =>
    match date_timediff.operator_sub_int one_day with
    | .error e => .error e
    | .ok lhs =>
    match TimeDiff.ctor_int 1 0 0 0 with
    | .error e => .error e
    | .ok one_day2 =>
    match time_timediff.operator_add_int one_day2 with
    | .error e => .error e
    | .ok rhs => lhs.operator_add_int rhs
  else
    date_timediff.operator_add_int time_timediff

end DateTime

/-! ## Reference notions used to state the properties -/

/-- Cyclic successor in the order of `enum class Weekday`. -/
def Weekday.succ : Weekday → Weekday
  | .SUNDAY => .MONDAY
  | .MONDAY => .TUESDAY
  | .TUESDAY => .WEDNESDAY
  | .WEDNESDAY => .THURSDAY
  | .THURSDAY => .FRIDAY
  | .FRIDAY => .SATURDAY
  | .SATURDAY => .SUNDAY

/-- One call of a mutator of `Time` (datetime.cpp 118-133). -/
inductive TimeCall where
  | add_seconds (nb_seconds : Int)
  | add_minutes (nb_minutes : Int)
  | add_hours (nb_hours : Int)

/-- Effect of one mutator call on a `Time`. -/
def Time.call (self : Time) : TimeCall → Time
  | .add_seconds n => self.add_seconds n
  | .add_minutes n => self.add_minutes n
  | .add_hours n => self.add_hours n

/-- Effect of a sequence of mutator calls, first call first. -/
def Time.calls (self : Time) (cs : List TimeCall) : Time := cs.foldl Time.call self

/-! ## Closed forms used in the proofs -/

namespace Date

/-- Length of `year` in days, the local `days_in_year` of `Date::calculate_year`. -/
def days_in_year (year : Int) : Int := if is_leapyear year = true then 366 else 365

/-- Closed form of the constructor (datetime.cpp 258) at `day = 1`: days before 1 January. -/
def days_before_year (year : Int) : Int :=
  year * 365 + Int.tdiv year 4 - Int.tdiv year 100 + Int.tdiv year 400
    + (if is_leapyear year = true then 0 else 1)

/-- Length of February of `year`. -/
def feb (year : Int) : Int := if is_leapyear year = true then 29 else 28

/-- Length of a month, total in `month`; agrees with `days_in_month` on `1..12`. -/
def month_length (year month : Int) : Int :=
  if month = 2 then feb year
  else if month = 4 ∨ month = 6 ∨ month = 9 ∨ month = 11 then 30
  else 31

/-- Days of `year` before the first of `month`: what the loop of the constructor adds. -/
def days_before_month (year month : Int) : Int :=
  if month ≤ 1 then 0
  else if month = 2 then 31
  else if month = 3 then 31 + feb year
  else if month = 4 then 62 + feb year
  else if month = 5 then 92 + feb year
  else if month = 6 then 123 + feb year
  else if month = 7 then 153 + feb year
  else if month = 8 then 184 + feb year
  else if month = 9 then 215 + feb year
  else if month = 10 then 245 + feb year
  else if month = 11 then 276 + feb year
  else 306 + feb year

end Date

/-! ## Arithmetic of truncating division -/

theorem tdiv_cases (a b : Int) (hb : 0 < b) :
    Int.tdiv a b = if 0 ≤ a then a / b else -((-a) / b) := by
  split
  · exact Int.tdiv_eq_ediv (by assumption) (le_of_lt hb)
  · have h : a = -(-a) := by omega
    rw [h, Int.neg_tdiv, Int.tdiv_eq_ediv (by omega) (le_of_lt hb)]
    simp

theorem tmod_cases (a b : Int) (hb : 0 < b) :
    Int.tmod a b = if 0 ≤ a then a % b else -((-a) % b) := by
  rw [Int.tmod_def, tdiv_cases a b hb]
  split
  · rw [Int.emod_def]
  · rw [Int.emod_def]; ring

namespace Date

theorem is_leapyear_iff (y : Int) :
    is_leapyear y = true ↔ (y % 4 = 0 ∧ y % 100 ≠ 0) ∨ y % 400 = 0 := by
  unfold is_leapyear
  rw [tmod_cases y 4 (by norm_num), tmod_cases y 100 (by norm_num), tmod_cases y 400 (by norm_num)]
  simp only [Bool.or_eq_true, Bool.and_eq_true, beq_iff_eq, bne_iff_ne, ne_eq]
  split_ifs <;> omega

theorem days_before_year_closed (y : Int) (hy : 0 ≤ y) :
    days_before_year y = y * 365 + y / 4 - y / 100 + y / 400
      + (if (y % 4 = 0 ∧ y % 100 ≠ 0) ∨ y % 400 = 0 then 0 else 1) := by
  unfold days_before_year
  rw [Int.tdiv_eq_ediv hy (by norm_num), Int.tdiv_eq_ediv hy (by norm_num),
    Int.tdiv_eq_ediv hy (by norm_num)]
  congr 1
  by_cases h : is_leapyear y = true
  · rw [if_pos h, if_pos ((is_leapyear_iff y).1 h)]
  · rw [if_neg h, if_neg (fun hc => h ((is_leapyear_iff y).2 hc))]

theorem days_in_year_closed (y : Int) :
    days_in_year y = if (y % 4 = 0 ∧ y % 100 ≠ 0) ∨ y % 400 = 0 then 366 else 365 := by
  unfold days_in_year
  by_cases h : is_leapyear y = true
  · rw [if_pos h, if_pos ((is_leapyear_iff y).1 h)]
  · rw [if_neg h, if_neg (fun hc => h ((is_leapyear_iff y).2 hc))]

theorem days_before_year_succ (y : Int) (hy : 0 ≤ y) :
    days_before_year (y + 1) = days_before_year y + days_in_year y := by
  rw [days_before_year_closed y hy, days_before_year_closed (y + 1) (by omega),
    days_in_year_closed]
  split_ifs <;> omega

theorem days_in_year_pos (y : Int) : 365 ≤ days_in_year y ∧ days_in_year y ≤ 366 := by
  unfold days_in_year; split <;> omega

theorem days_before_year_zero : days_before_year 0 = 0 := by decide

theorem days_before_year_mono (y : Int) (hy : 0 ≤ y) (k : Nat) :
    days_before_year y + 365 * k ≤ days_before_year (y + k) := by
  induction k with
  | zero => simp
  | succ k ih =>
    have h := days_before_year_succ (y + k) (by omega)
    have hp := days_in_year_pos (y + k)
    have e : y + ((k + 1 : Nat) : Int) = y + k + 1 := by push_cast; ring
    rw [e, h]
    push_cast
    omega

theorem calculate_year_loop_break (y t : Int) (h : t < days_in_year y) :
    calculate_year_loop y t = (y, t) := by
  rw [calculate_year_loop]
  unfold days_in_year at h
  rw [dif_pos h]

theorem calculate_year_loop_step (y t : Int) (h : ¬ t < days_in_year y) :
    calculate_year_loop y t = calculate_year_loop (y + 1) (t - days_in_year y) := by
  rw [calculate_year_loop]
  unfold days_in_year at h ⊢
  rw [dif_neg h]

/-- Started at `y0` with the days from 1 January `y0` up to day `r` of year `y0 + k`, the
year loop stops at `(y0 + k, r)`. -/
theorem calculate_year_loop_spec (k : Nat) (y0 : Int) (hy0 : 0 ≤ y0) (r : Int)
    (hr : r < days_in_year (y0 + k)) (hr0 : 0 ≤ r) :
    calculate_year_loop y0 (days_before_year (y0 + k) - days_before_year y0 + r)
      = (y0 + k, r) := by
  induction k generalizing y0 with
  | zero =>
    simp only [Nat.cast_zero, add_zero, sub_self, zero_add] at hr ⊢
    exact calculate_year_loop_break y0 r hr
  | succ k ih =>
    have e : y0 + ((k + 1 : Nat) : Int) = (y0 + 1) + k := by push_cast; ring
    rw [e] at hr ⊢
    have hs := days_before_year_succ y0 hy0
    have hm := days_before_year_mono (y0 + 1) (by omega) k
    rw [calculate_year_loop_step]
    · have := ih (y0 + 1) (by omega) hr
      rw [← this]
      congr 1
      omega
    · have : (0:Int) ≤ 365 * k := by positivity
      omega

/-- For a non-negative day count the year loop stops, at a year and a day of that year. -/
theorem calculate_year_loop_inv (n : Nat) : ∀ (y0 t : Int), 0 ≤ y0 → 0 ≤ t → t.toNat ≤ n →
    y0 ≤ (calculate_year_loop y0 t).1 ∧ 0 ≤ (calculate_year_loop y0 t).2 ∧
    (calculate_year_loop y0 t).2 < days_in_year (calculate_year_loop y0 t).1 ∧
    days_before_year (calculate_year_loop y0 t).1 + (calculate_year_loop y0 t).2
      = days_before_year y0 + t := by
  induction n with
  | zero =>
    intro y0 t hy0 ht hn
    have hp := days_in_year_pos y0
    rw [calculate_year_loop_break y0 t (by omega)]
    simp
    omega
  | succ n ih =>
    intro y0 t hy0 ht hn
    have hp := days_in_year_pos y0
    by_cases hb : t < days_in_year y0
    · rw [calculate_year_loop_break y0 t hb]
      simp
      omega
    · rw [calculate_year_loop_step y0 t hb]
      have := ih (y0 + 1) (t - days_in_year y0) (by omega) (by omega) (by omega)
      have hs := days_before_year_succ y0 hy0
      omega

theorem calculate_year_loop_neg (y t : Int) (h : t < 0) : calculate_year_loop y t = (y, t) := by
  have hp := days_in_year_pos y
  exact calculate_year_loop_break y t (by omega)

theorem feb_cases (y : Int) : feb y = 28 ∨ feb y = 29 := by
  unfold feb; split <;> simp

theorem days_in_month_feb (y : Int) : days_in_month y 2 = .ok (feb y) := by
  unfold days_in_month feb
  by_cases h : is_leapyear y = true
  · simp [h]
  · simp [h, days_in_months_at, days_in_months]

theorem days_in_month_table (y m : Int) (hm : m ≠ 2) :
    days_in_month y m = days_in_months_at (m - 1) := by
  unfold days_in_month
  rw [if_neg (by tauto)]

theorem calculate_month_loop_ok (y m t v m1 : Int) (hm1 : m + 1 = m1)
    (h : days_in_month y m = .ok v) :
    calculate_month_loop y m t
      = if t < v then .ok (m, t) else calculate_month_loop y m1 (t - v) := by
  rw [calculate_month_loop]
  unfold days_in_month at h
  subst hm1
  split
  · rename_i e he
    rw [h] at he
    exact absurd he (by simp)
  · rename_i w hw
    rw [h] at hw
    cases hw
    rfl

theorem calculate_month_loop_error (y m t : Int) (e : Error) (h : days_in_month y m = .error e) :
    calculate_month_loop y m t = .error e := by
  rw [calculate_month_loop]
  unfold days_in_month at h
  split
  · rename_i e2 he
    rw [h] at he
    cases he
    rfl
  · rename_i w hw
    rw [h] at hw
    exact absurd hw (by simp)

theorem calculate_month_loop_unrolled (y t : Int) :
    calculate_month_loop y 1 t =
      if t < 31 then .ok (1, t)
      else if t - 31 < feb y then .ok (2, t - 31)
      else if t - 31 - feb y < 31 then .ok (3, t - 31 - feb y)
      else if t - 31 - feb y - 31 < 30 then .ok (4, t - 31 - feb y - 31)
      else if t - 31 - feb y - 31 - 30 < 31 then .ok (5, t - 31 - feb y - 31 - 30)
      else if t - 31 - feb y - 31 - 30 - 31 < 30 then .ok (6, t - 31 - feb y - 31 - 30 - 31)
      else if t - 31 - feb y - 31 - 30 - 31 - 30 < 31 then
        .ok (7, t - 31 - feb y - 31 - 30 - 31 - 30)
      else if t - 31 - feb y - 31 - 30 - 31 - 30 - 31 < 31 then
        .ok (8, t - 31 - feb y - 31 - 30 - 31 - 30 - 31)
      else if t - 31 - feb y - 31 - 30 - 31 - 30 - 31 - 31 < 30 then
        .ok (9, t - 31 - feb y - 31 - 30 - 31 - 30 - 31 - 31)
      else if t - 31 - feb y - 31 - 30 - 31 - 30 - 31 - 31 - 30 < 31 then
        .ok (10, t - 31 - feb y - 31 - 30 - 31 - 30 - 31 - 31 - 30)
      else if t - 31 - feb y - 31 - 30 - 31 - 30 - 31 - 31 - 30 - 31 < 30 then
        .ok (11, t - 31 - feb y - 31 - 30 - 31 - 30 - 31 - 31 - 30 - 31)
      else if t - 31 - feb y - 31 - 30 - 31 - 30 - 31 - 31 - 30 - 31 - 30 < 31 then
        .ok (12, t - 31 - feb y - 31 - 30 - 31 - 30 - 31 - 31 - 30 - 31 - 30)
      else .error (.table_index 12) := by
  have d (m v : Int) (hm : m ≠ 2) (hv : days_in_months_at (m - 1) = .ok v) :
      days_in_month y m = .ok v := by rw [days_in_month_table y m hm, hv]
  rw [calculate_month_loop_ok y 1 _ 31 2 rfl (d 1 31 (by decide) rfl),
    calculate_month_loop_ok y 2 _ (feb y) 3 rfl (days_in_month_feb y),
    calculate_month_loop_ok y 3 _ 31 4 rfl (d 3 31 (by decide) rfl),
    calculate_month_loop_ok y 4 _ 30 5 rfl (d 4 30 (by decide) rfl),
    calculate_month_loop_ok y 5 _ 31 6 rfl (d 5 31 (by decide) rfl),
    calculate_month_loop_ok y 6 _ 30 7 rfl (d 6 30 (by decide) rfl),
    calculate_month_loop_ok y 7 _ 31 8 rfl (d 7 31 (by decide) rfl),
    calculate_month_loop_ok y 8 _ 31 9 rfl (d 8 31 (by decide) rfl),
    calculate_month_loop_ok y 9 _ 30 10 rfl (d 9 30 (by decide) rfl),
    calculate_month_loop_ok y 10 _ 31 11 rfl (d 10 31 (by decide) rfl),
    calculate_month_loop_ok y 11 _ 30 12 rfl (d 11 30 (by decide) rfl),
    calculate_month_loop_ok y 12 _ 31 13 rfl (d 12 31 (by decide) rfl),
    calculate_month_loop_error y 13 _ (.table_index 12)
      (by rw [days_in_month_table _ _ (by decide)]; rfl)]

theorem days_in_months_at_error (i : Int) (h : i < 0 ∨ 12 ≤ i) :
    days_in_months_at i = .error (.table_index i) := by
  unfold days_in_months_at
  split
  · have hlen : days_in_months.length ≤ i.toNat := by
      simp [days_in_months]; omega
    rw [List.getElem?_eq_none hlen]
  · rfl

theorem days_in_month_valid (y m : Int) (h1 : 1 ≤ m) (h12 : m ≤ 12) :
    days_in_month y m = .ok (month_length y m) := by
  by_cases h2 : m = 2
  · subst h2
    rw [days_in_month_feb]
    rfl
  · rw [days_in_month_table y m h2]
    unfold month_length
    rw [if_neg h2]
    interval_cases m <;> first | rfl | exact absurd rfl h2

theorem days_in_month_invalid (y m : Int) (h : m < 1 ∨ 12 < m) :
    days_in_month y m = .error (.table_index (m - 1)) := by
  rw [days_in_month_table y m (by omega)]
  exact days_in_months_at_error _ (by omega)

theorem days_in_month_ok_iff (y m v : Int) :
    days_in_month y m = .ok v ↔ 1 ≤ m ∧ m ≤ 12 ∧ v = month_length y m := by
  by_cases h : 1 ≤ m ∧ m ≤ 12
  · rw [days_in_month_valid y m h.1 h.2]
    constructor
    · intro hv
      injection hv with hv
      exact ⟨h.1, h.2, hv.symm⟩
    · rintro ⟨_, _, hv⟩
      rw [hv]
  · rw [days_in_month_invalid y m (by omega)]
    constructor
    · intro hv; exact absurd hv (by simp)
    · rintro ⟨h1, h2, _⟩; exact absurd ⟨h1, h2⟩ h

theorem ctor_loop_eq (y m base : Int) (h1 : 1 ≤ m) (h12 : m ≤ 12) :
    ctor_loop y (m - 1).toNat 0 base = .ok (base + days_before_month y m) := by
  have hf := days_in_month_feb y
  have d (k : Int) (hk1 : 1 ≤ k) (hk12 : k ≤ 12 ) := days_in_month_valid y k hk1 hk12
  interval_cases m
  all_goals
    norm_num [ctor_loop, days_before_month, d, month_length]
  all_goals
    rcases feb_cases y with hfe | hfe <;> rw [hfe] <;> norm_num <;> omega
  
end Date

theorem check_integer_range_ok_iff (v : Int) (name : String) (lo hi : Int) :
    check_integer_range v name lo hi = .ok () ↔ lo ≤ v ∧ v ≤ hi := by
  unfold check_integer_range
  split
  · constructor
    · intro h; exact absurd h (by simp)
    · intro h; omega
  · constructor
    · intro _; omega
    · intro _; rfl

theorem check_integer_range_of_mem {v : Int} (name : String) {lo hi : Int}
    (h1 : lo ≤ v) (h2 : v ≤ hi) : check_integer_range v name lo hi = .ok () :=
  (check_integer_range_ok_iff v name lo hi).2 ⟨h1, h2⟩

theorem check_integer_range_error {v : Int} (name : String) {lo hi : Int}
    (h : v < lo ∨ hi < v) : check_integer_range v name lo hi = .error (.range name lo hi) := by
  unfold check_integer_range
  rw [if_pos]
  omega

namespace Date

theorem ctor_valid (y m d : Int) (hy0 : 0 ≤ y) (hy1 : y ≤ INT_MAX) (hm1 : 1 ≤ m)
    (hm12 : m ≤ 12) (hd1 : 1 ≤ d) (hd2 : d ≤ month_length y m) :
    Date.ctor y m d = .ok ⟨days_before_year y + days_before_month y m + (d - 1)⟩ := by
  unfold Date.ctor
  rw [check_integer_range_of_mem "year" hy0 hy1, check_integer_range_of_mem "month" hm1 hm12]
  simp only
  rw [days_in_month_valid y m hm1 hm12]
  simp only
  rw [check_integer_range_of_mem "day" hd1 hd2]
  simp only
  rw [ctor_loop_eq y m _ hm1 hm12]
  simp only [days_before_year]
  congr 2
  ring

theorem ctor_invalid (y m d : Int)
    (h : y < 0 ∨ INT_MAX < y ∨ m < 1 ∨ 12 < m ∨ d < 1 ∨ month_length y m < d) :
    ∃ name lo hi, Date.ctor y m d = .error (.range name lo hi) := by
  unfold Date.ctor
  by_cases hy : y < 0 ∨ INT_MAX < y
  · rw [check_integer_range_error "year" hy]; exact ⟨_, _, _, rfl⟩
  · rw [check_integer_range_of_mem "year" (by omega) (by omega)]
    by_cases hm : m < 1 ∨ 12 < m
    · rw [check_integer_range_error "month" hm]; exact ⟨_, _, _, rfl⟩
    · rw [check_integer_range_of_mem "month" (by omega) (by omega)]
      simp only
      rw [days_in_month_valid y m (by omega) (by omega)]
      simp only
      rw [check_integer_range_error "day" (by omega)]
      exact ⟨_, _, _, rfl⟩

theorem ctor_ok_iff (y m d : Int) (dt : Date) :
    Date.ctor y m d = .ok dt ↔
      (0 ≤ y ∧ y ≤ INT_MAX ∧ 1 ≤ m ∧ m ≤ 12 ∧ 1 ≤ d ∧ d ≤ month_length y m ∧
        dt = ⟨days_before_year y + days_before_month y m + (d - 1)⟩) := by
  constructor
  · intro h
    by_cases hv : y < 0 ∨ INT_MAX < y ∨ m < 1 ∨ 12 < m ∨ d < 1 ∨ month_length y m < d
    · obtain ⟨n, lo, hi, he⟩ := ctor_invalid y m d hv
      rw [he] at h
      exact absurd h (by simp)
    · have hv2 : 0 ≤ y ∧ y ≤ INT_MAX ∧ 1 ≤ m ∧ m ≤ 12 ∧ 1 ≤ d ∧ d ≤ month_length y m := by
        omega
      obtain ⟨a, b, c, e, f, g⟩ := hv2
      rw [ctor_valid y m d a b c e f g] at h
      injection h with h
      exact ⟨a, b, c, e, f, g, h.symm⟩
  · rintro ⟨a, b, c, e, f, g, h⟩
    rw [h]
    exact ctor_valid y m d a b c e f g

theorem days_in_year_eq_feb (y : Int) : days_in_year y = 337 + feb y := by
  unfold days_in_year feb; split <;> rfl

theorem month_length_bounds (y m : Int) : 28 ≤ month_length y m ∧ month_length y m ≤ 31 := by
  unfold month_length
  rcases feb_cases y with hf | hf <;> rw [hf] <;> split_ifs <;> omega

theorem day_of_year_lt (y m d : Int) (hm1 : 1 ≤ m) (hm12 : m ≤ 12)
    (hd2 : d ≤ month_length y m) : days_before_month y m + (d - 1) < days_in_year y := by
  rw [days_in_year_eq_feb]
  unfold month_length at hd2
  unfold days_before_month
  rcases feb_cases y with hf | hf <;> rw [hf] at hd2 ⊢ <;> interval_cases m <;>
    norm_num at hd2 ⊢ <;> omega

theorem days_before_month_nonneg (y m : Int) (hm1 : 1 ≤ m) (hm12 : m ≤ 12) :
    0 ≤ days_before_month y m := by
  have hf := feb_cases y
  interval_cases m <;> norm_num [days_before_month] <;> omega

theorem calculate_year_valid (y m d : Int) (hy0 : 0 ≤ y) (hm1 : 1 ≤ m) (hm12 : m ≤ 12)
    (hd1 : 1 ≤ d) (hd2 : d ≤ month_length y m) :
    calculate_year (days_before_year y + days_before_month y m + (d - 1))
      = (y, days_before_month y m + (d - 1)) := by
  unfold calculate_year
  have hlt := day_of_year_lt y m d hm1 hm12 hd2
  have hnn := days_before_month_nonneg y m hm1 hm12
  have hy : (0 : Int) + (y.toNat : Int) = y := by omega
  have h := calculate_year_loop_spec y.toNat 0 (le_refl 0) (days_before_month y m + (d - 1))
    (by rw [hy]; exact hlt) (by omega)
  rw [hy, days_before_year_zero] at h
  rw [← h]
  congr 1
  omega

theorem calculate_month_loop_valid (y m d : Int) (hm1 : 1 ≤ m) (hm12 : m ≤ 12)
    (hd1 : 1 ≤ d) (hd2 : d ≤ month_length y m) :
    calculate_month_loop y 1 (days_before_month y m + (d - 1)) = .ok (m, d - 1) := by
  rw [calculate_month_loop_unrolled]
  unfold month_length at hd2
  unfold days_before_month
  rcases feb_cases y with hf | hf <;> rw [hf] at hd2 ⊢ <;> interval_cases m <;>
    norm_num at hd2 ⊢ <;> (repeat (first | rw [if_pos (by omega)] | rw [if_neg (by omega)])) <;>
    (congr 2; omega)

theorem month_length_num (y : Int) :
    month_length y 1 = 31 ∧
    month_length y 2 = feb y ∧
    month_length y 3 = 31 ∧
    month_length y 4 = 30 ∧
    month_length y 5 = 31 ∧
    month_length y 6 = 30 ∧
    month_length y 7 = 31 ∧
    month_length y 8 = 31 ∧
    month_length y 9 = 30 ∧
    month_length y 10 = 31 ∧
    month_length y 11 = 30 ∧
    month_length y 12 = 31 := by
  simp [month_length]

theorem days_before_month_num (y : Int) :
    days_before_month y 1 = 0 ∧
    days_before_month y 2 = 31 ∧
    days_before_month y 3 = 31 + feb y ∧
    days_before_month y 4 = 62 + feb y ∧
    days_before_month y 5 = 92 + feb y ∧
    days_before_month y 6 = 123 + feb y ∧
    days_before_month y 7 = 153 + feb y ∧
    days_before_month y 8 = 184 + feb y ∧
    days_before_month y 9 = 215 + feb y ∧
    days_before_month y 10 = 245 + feb y ∧
    days_before_month y 11 = 276 + feb y ∧
    days_before_month y 12 = 306 + feb y := by
  simp [days_before_month]

theorem calculate_month_loop_inv (y r : Int) (h0 : 0 ≤ r) (h1 : r < days_in_year y) :
    ∃ m r1, calculate_month_loop y 1 r = .ok (m, r1) ∧ 1 ≤ m ∧ m ≤ 12 ∧ 0 ≤ r1 ∧
      r1 < month_length y m ∧ days_before_month y m + r1 = r := by
  rw [calculate_month_loop_unrolled]
  rw [days_in_year_eq_feb] at h1
  have hf := feb_cases y
  by_cases c1 : r < 31
  · rw [if_pos c1]
    refine ⟨1, _, rfl, by norm_num, by norm_num, by omega, ?_, ?_⟩
    · rw [(month_length_num y).1]; omega
    · rw [(days_before_month_num y).1]; omega
  rw [if_neg c1]
  by_cases c2 : r - 31 < feb y
  · rw [if_pos c2]
    refine ⟨2, _, rfl, by norm_num, by norm_num, by omega, ?_, ?_⟩
    · rw [(month_length_num y).2.1]; omega
    · rw [(days_before_month_num y).2.1]; omega
  rw [if_neg c2]
  by_cases c3 : r - 31 - feb y < 31
  · rw [if_pos c3]
    refine ⟨3, _, rfl, by norm_num, by norm_num, by omega, ?_, ?_⟩
    · rw [(month_length_num y).2.2.1]; omega
    · rw [(days_before_month_num y).2.2.1]; omega
  rw [if_neg c3]
  by_cases c4 : r - 31 - feb y - 31 < 30
  · rw [if_pos c4]
    refine ⟨4, _, rfl, by norm_num, by norm_num, by omega, ?_, ?_⟩
    · rw [(month_length_num y).2.2.2.1]; omega
    · rw [(days_before_month_num y).2.2.2.1]; omega
  rw [if_neg c4]
  by_cases c5 : r - 31 - feb y - 31 - 30 < 31
  · rw [if_pos c5]
    refine ⟨5, _, rfl, by norm_num, by norm_num, by omega, ?_, ?_⟩
    · rw [(month_length_num y).2.2.2.2.1]; omega
    · rw [(days_before_month_num y).2.2.2.2.1]; omega
  rw [if_neg c5]
  by_cases c6 : r - 31 - feb y - 31 - 30 - 31 < 30
  · rw [if_pos c6]
    refine ⟨6, _, rfl, by norm_num, by norm_num, by omega, ?_, ?_⟩
    · rw [(month_length_num y).2.2.2.2.2.1]; omega
    · rw [(days_before_month_num y).2.2.2.2.2.1]; omega
  rw [if_neg c6]
  by_cases c7 : r - 31 - feb y - 31 - 30 - 31 - 30 < 31
  · rw [if_pos c7]
    refine ⟨7, _, rfl, by norm_num, by norm_num, by omega, ?_, ?_⟩
    · rw [(month_length_num y).2.2.2.2.2.2.1]; omega
    · rw [(days_before_month_num y).2.2.2.2.2.2.1]; omega
  rw [if_neg c7]
  by_cases c8 : r - 31 - feb y - 31 - 30 - 31 - 30 - 31 < 31
  · rw [if_pos c8]
    refine ⟨8, _, rfl, by norm_num, by norm_num, by omega, ?_, ?_⟩
    · rw [(month_length_num y).2.2.2.2.2.2.2.1]; omega
    · rw [(days_before_month_num y).2.2.2.2.2.2.2.1]; omega
  rw [if_neg c8]
  by_cases c9 : r - 31 - feb y - 31 - 30 - 31 - 30 - 31 - 31 < 30
  · rw [if_pos c9]
    refine ⟨9, _, rfl, by norm_num, by norm_num, by omega, ?_, ?_⟩
    · rw [(month_length_num y).2.2.2.2.2.2.2.2.1]; omega
    · rw [(days_before_month_num y).2.2.2.2.2.2.2.2.1]; omega
  rw [if_neg c9]
  by_cases c10 : r - 31 - feb y - 31 - 30 - 31 - 30 - 31 - 31 - 30 < 31
  · rw [if_pos c10]
    refine ⟨10, _, rfl, by norm_num, by norm_num, by omega, ?_, ?_⟩
    · rw [(month_length_num y).2.2.2.2.2.2.2.2.2.1]; omega
    · rw [(days_before_month_num y).2.2.2.2.2.2.2.2.2.1]; omega
  rw [if_neg c10]
  by_cases c11 : r - 31 - feb y - 31 - 30 - 31 - 30 - 31 - 31 - 30 - 31 < 30
  · rw [if_pos c11]
    refine ⟨11, _, rfl, by norm_num, by norm_num, by omega, ?_, ?_⟩
    · rw [(month_length_num y).2.2.2.2.2.2.2.2.2.2.1]; omega
    · rw [(days_before_month_num y).2.2.2.2.2.2.2.2.2.2.1]; omega
  rw [if_neg c11]
  by_cases c12 : r - 31 - feb y - 31 - 30 - 31 - 30 - 31 - 31 - 30 - 31 - 30 < 31
  · rw [if_pos c12]
    refine ⟨12, _, rfl, by norm_num, by norm_num, by omega, ?_, ?_⟩
    · rw [(month_length_num y).2.2.2.2.2.2.2.2.2.2.2]; omega
    · rw [(days_before_month_num y).2.2.2.2.2.2.2.2.2.2.2]; omega
  rw [if_neg c12]
  exfalso
  omega

end Date

theorem TimeDiff.ctor_ok {d h m s : Int} (hh1 : -23 ≤ h) (hh2 : h ≤ 23) (hm1 : -59 ≤ m) (hm2 : m ≤ 59)
    (hs1 : -59 ≤ s) (hs2 : s ≤ 59)
    (hsign : ¬ ((d < 0 ∧ (h > 0 ∨ m > 0 ∨ s > 0)) ∨ (d > 0 ∧ (h < 0 ∨ m < 0 ∨ s < 0)))) :
    TimeDiff.ctor d h m s = .ok ⟨((d * 24 + h) * 60 + m) * 60 + s⟩ := by
  unfold TimeDiff.ctor
  rw [check_integer_range_of_mem "hour" hh1 hh2, check_integer_range_of_mem "minute" hm1 hm2,
    check_integer_range_of_mem "second" hs1 hs2]
  simp only
  rw [if_neg hsign]

theorem TimeDiff.ctor_error_iff (d h m s : Int) :
    (∃ e, TimeDiff.ctor d h m s = .error e) ↔
      (h < -23 ∨ 23 < h ∨ m < -59 ∨ 59 < m ∨ s < -59 ∨ 59 < s
        ∨ (d < 0 ∧ (h > 0 ∨ m > 0 ∨ s > 0)) ∨ (d > 0 ∧ (h < 0 ∨ m < 0 ∨ s < 0))) := by
  constructor
  · rintro ⟨e, he⟩
    by_contra hc
    rw [TimeDiff.ctor_ok (by omega) (by omega) (by omega) (by omega) (by omega) (by omega)
      (by omega)] at he
    exact absurd he (by simp)
  · intro hc
    unfold TimeDiff.ctor
    by_cases hh : h < -23 ∨ 23 < h
    · rw [check_integer_range_error "hour" hh]; exact ⟨_, rfl⟩
    · rw [check_integer_range_of_mem "hour" (by omega) (by omega)]
      by_cases hm : m < -59 ∨ 59 < m
      · rw [check_integer_range_error "minute" hm]; exact ⟨_, rfl⟩
      · rw [check_integer_range_of_mem "minute" (by omega) (by omega)]
        by_cases hs : s < -59 ∨ 59 < s
        · rw [check_integer_range_error "second" hs]; exact ⟨_, rfl⟩
        · rw [check_integer_range_of_mem "second" (by omega) (by omega)]
          simp only
          rw [if_pos (by omega)]
          exact ⟨_, rfl⟩

theorem timediff_components (d h m s : Int)
    (hh1 : -23 ≤ h) (hh2 : h ≤ 23) (hm1 : -59 ≤ m) (hm2 : m ≤ 59) (hs1 : -59 ≤ s) (hs2 : s ≤ 59)
    (hsign : (0 ≤ d ∧ 0 ≤ h ∧ 0 ≤ m ∧ 0 ≤ s) ∨ (d ≤ 0 ∧ h ≤ 0 ∧ m ≤ 0 ∧ s ≤ 0)) :
    Int.tdiv (((d * 24 + h) * 60 + m) * 60 + s) (24 * 60 * 60) = d ∧
    Int.tmod (Int.tdiv (((d * 24 + h) * 60 + m) * 60 + s) (60 * 60)) 24 = h ∧
    Int.tmod (Int.tdiv (((d * 24 + h) * 60 + m) * 60 + s) 60) 60 = m ∧
    Int.tmod (((d * 24 + h) * 60 + m) * 60 + s) 60 = s := by
  rw [tdiv_cases _ _ (by norm_num : (0:Int) < 24 * 60 * 60),
    tdiv_cases _ _ (by norm_num : (0:Int) < 60 * 60),
    tdiv_cases _ _ (by norm_num : (0:Int) < 60),
    tmod_cases _ _ (by norm_num : (0:Int) < 24),
    tmod_cases _ _ (by norm_num : (0:Int) < 60),
    tmod_cases _ _ (by norm_num : (0:Int) < 60)]
  norm_num
  rcases hsign with hp | hn
  · refine ⟨?_, ?_, ?_, ?_⟩ <;> split_ifs <;> omega
  · refine ⟨?_, ?_, ?_, ?_⟩ <;> split_ifs <;> omega

theorem TimeDiff.operator_add_eq (a b : TimeDiff) :
    a.operator_add b = .ok ⟨a.total_seconds_ + b.total_seconds_⟩ := by
  unfold TimeDiff.operator_add
  rw [TimeDiff.ctor_ok (by omega) (by omega) (by omega) (by omega) (by omega) (by omega)
    (by omega)]
  simp [TimeDiff.add_seconds, TimeDiff.total_seconds]

theorem Date.date_operator_sub_eq (a b : Date) :
    a.operator_sub b = .ok ⟨(a.total_days_ - b.total_days_) * 86400⟩ := by
  unfold Date.operator_sub
  rw [TimeDiff.ctor_ok (by omega) (by omega) (by omega) (by omega) (by omega) (by omega)
    (by omega)]
  simp only [Date.get_total_days]
  congr 2
  ring

theorem Time.time_operator_sub_eq (a b : Time)
    (ha0 : 0 ≤ a.total_seconds_) (ha1 : a.total_seconds_ ≤ 86399)
    (hb0 : 0 ≤ b.total_seconds_) (hb1 : b.total_seconds_ ≤ 86399) :
    a.operator_sub b = .ok ⟨a.total_seconds_ - b.total_seconds_⟩ := by
  unfold Time.operator_sub
  simp only [Time.get_total_seconds]
  generalize ht : a.total_seconds_ - b.total_seconds_ = t
  have ht0 : -86399 ≤ t := by omega
  have ht1 : t ≤ 86399 := by omega
  have e1 := tdiv_cases t (60 * 60) (by norm_num)
  have e2 := tdiv_cases t 60 (by norm_num)
  have e3 := tmod_cases t 60 (by norm_num)
  have e4 := tmod_cases (Int.tdiv t 60) 60 (by norm_num)
  rw [TimeDiff.ctor_ok (by split_ifs at e1 <;> omega) (by split_ifs at e1 <;> omega)
    (by split_ifs at e2 e4 <;> omega) (by split_ifs at e2 e4 <;> omega)
    (by split_ifs at e3 <;> omega) (by split_ifs at e3 <;> omega) (by omega)]
  congr 2
  split_ifs at e1 e2 e3 e4 <;> omega

theorem TimeDiff.operator_sub_one_day (a : TimeDiff) :
    a.operator_sub ⟨86400⟩ = .ok ⟨a.total_seconds_ - 86400⟩ := by
  unfold TimeDiff.operator_sub
  have h1 : TimeDiff.days ⟨86400⟩ = 1 := by decide
  have h2 : TimeDiff.hours ⟨86400⟩ = 0 := by decide
  have h3 : TimeDiff.minutes ⟨86400⟩ = 0 := by decide
  have h4 : TimeDiff.seconds ⟨86400⟩ = 0 := by decide
  rw [h1, h2, h3, h4]
  rw [TimeDiff.ctor_ok (by omega) (by omega) (by omega) (by omega) (by omega) (by omega)
    (by omega)]
  simp only
  rw [TimeDiff.operator_add_eq]
  congr 2

theorem DateTime.datetime_operator_sub_eq (a b : DateTime)
    (ha0 : 0 ≤ a.total_seconds_) (ha1 : a.total_seconds_ ≤ 86399)
    (hb0 : 0 ≤ b.total_seconds_) (hb1 : b.total_seconds_ ≤ 86399) :
    a.operator_sub b = .ok ⟨(a.total_days_ - b.total_days_) * 86400
      + (a.total_seconds_ - b.total_seconds_)⟩ := by
  unfold DateTime.operator_sub
  rw [Date.date_operator_sub_eq, Time.time_operator_sub_eq _ _ ha0 ha1 hb0 hb1]
  simp only
  have hone : TimeDiff.ctor 1 0 0 0 = .ok ⟨86400⟩ := rfl
  split
  · rw [hone]
    simp only
    rw [TimeDiff.operator_sub_one_day, TimeDiff.operator_add_eq]
    simp only
    rw [TimeDiff.operator_add_eq]
    congr 2
    simp only
    ring
  · rw [TimeDiff.operator_add_eq]

/-! ## Decomposition of a day count -/

namespace Date

/-- Decomposition of a non-negative day count into a calendar triple. -/
theorem decompose_nonneg (n : Int) (hn : 0 ≤ n) :
    ∃ y m d, (calculate_year n).1 = y ∧ calculate_month n = .ok (m, d - 1) ∧
      0 ≤ y ∧ y ≤ n ∧ 1 ≤ m ∧ m ≤ 12 ∧ 1 ≤ d ∧ d ≤ month_length y m ∧
      days_before_year y + days_before_month y m + (d - 1) = n := by
  have hinv := calculate_year_loop_inv n.toNat 0 n (le_refl 0) hn (le_refl _)
  rw [days_before_year_zero] at hinv
  obtain ⟨hy0, hr0, hr1, hsum⟩ := hinv
  unfold calculate_month calculate_year
  generalize calculate_year_loop 0 n = p at hy0 hr0 hr1 hsum
  obtain ⟨y, r⟩ := p
  simp only at hy0 hr0 hr1 hsum ⊢
  obtain ⟨m, r1, hloop, hm1, hm12, hr10, hr11, hdb⟩ := calculate_month_loop_inv y r hr0 hr1
  have hmono := days_before_year_mono 0 (le_refl 0) y.toNat
  have hy : (0 : Int) + (y.toNat : Int) = y := by omega
  rw [hy, days_before_year_zero] at hmono
  refine ⟨y, m, r1 + 1, rfl, ?_, hy0, ?_, hm1, hm12, by omega, by omega, ?_⟩
  · rw [hloop]; congr 2; omega
  · have hb := days_before_month_nonneg y m hm1 hm12
    clear hloop hr11
    omega
  · omega

theorem year_eq (dt : Date) : dt.year = (calculate_year dt.total_days_).1 := rfl

theorem month_of_calculate {dt : Date} {m r : Int} (h : calculate_month dt.total_days_ = .ok (m, r)) :
    dt.month = .ok m := by
  unfold month get_total_days
  rw [h]

theorem day_of_calculate {dt : Date} {m r : Int} (h : calculate_month dt.total_days_ = .ok (m, r)) :
    dt.day = .ok (r + 1) := by
  unfold day get_total_days
  rw [h]

/-- Round trip on the level of the day count: the accessors undo the closed form. -/
theorem calculate_month_valid (y m d : Int) (hy0 : 0 ≤ y) (hm1 : 1 ≤ m) (hm12 : m ≤ 12)
    (hd1 : 1 ≤ d) (hd2 : d ≤ month_length y m) :
    calculate_month (days_before_year y + days_before_month y m + (d - 1)) = .ok (m, d - 1) := by
  unfold calculate_month
  rw [calculate_year_valid y m d hy0 hm1 hm12 hd1 hd2]
  exact calculate_month_loop_valid y m d hm1 hm12 hd1 hd2

theorem accessors_of_ctor (y m d : Int) (dt : Date) (h : Date.ctor y m d = .ok dt) :
    dt.year = y ∧ dt.month = .ok m ∧ dt.day = .ok d := by
  obtain ⟨hy0, _, hm1, hm12, hd1, hd2, hdt⟩ := (ctor_ok_iff y m d dt).1 h
  subst hdt
  have hc := calculate_month_valid y m d hy0 hm1 hm12 hd1 hd2
  refine ⟨?_, month_of_calculate hc, ?_⟩
  · rw [year_eq, calculate_year_valid y m d hy0 hm1 hm12 hd1 hd2]
  · rw [day_of_calculate hc]; congr 1; omega

end Date

/-! ## Weekday -/

namespace Date

theorem weekday_calculation_nonneg (y m d : Int) (hy : 0 ≤ y) (hm1 : 1 ≤ m) (hm12 : m ≤ 12)
    (hd : 1 ≤ d) : 36 ≤ weekday_calculation y m d ∨
      (3 ≤ m ∧ 0 ≤ weekday_calculation y m d) := by
  unfold weekday_calculation
  simp only
  by_cases hm : m < 3
  · left
    rw [if_pos hm, if_pos hm]
    rw [tmod_cases _ 100 (by norm_num), tdiv_cases (y - 1) 100 (by norm_num),
      tdiv_cases _ 4 (by norm_num), tdiv_cases _ 4 (by norm_num),
      tdiv_cases _ 5 (by norm_num)]
    split_ifs <;> omega
  · right
    rw [if_neg hm, if_neg hm]
    rw [tmod_cases _ 100 (by norm_num), tdiv_cases y 100 (by norm_num),
      tdiv_cases _ 4 (by norm_num), tdiv_cases _ 4 (by norm_num),
      tdiv_cases _ 5 (by norm_num)]
    refine ⟨by omega, ?_⟩
    split_ifs <;> omega

theorem weekday_switch_ok (w : Int) (hw : 0 ≤ w) :
    0 ≤ Int.tmod w 7 ∧ Int.tmod w 7 ≤ 6 ∧ ∃ wd, weekday_switch w = .ok wd := by
  have hr : 0 ≤ Int.tmod w 7 ∧ Int.tmod w 7 ≤ 6 := by
    rw [tmod_cases w 7 (by norm_num), if_pos hw]
    omega
  refine ⟨hr.1, hr.2, ?_⟩
  unfold weekday_switch
  simp only
  generalize Int.tmod w 7 = r at hr
  by_cases h0 : r = 0
  · rw [if_pos h0]; exact ⟨_, rfl⟩
  rw [if_neg h0]
  by_cases h1 : r = 1
  · rw [if_pos h1]; exact ⟨_, rfl⟩
  rw [if_neg h1]
  by_cases h2 : r = 2
  · rw [if_pos h2]; exact ⟨_, rfl⟩
  rw [if_neg h2]
  by_cases h3 : r = 3
  · rw [if_pos h3]; exact ⟨_, rfl⟩
  rw [if_neg h3]
  by_cases h4 : r = 4
  · rw [if_pos h4]; exact ⟨_, rfl⟩
  rw [if_neg h4]
  by_cases h5 : r = 5
  · rw [if_pos h5]; exact ⟨_, rfl⟩
  rw [if_neg h5]
  by_cases h6 : r = 6
  · rw [if_pos h6]; exact ⟨_, rfl⟩
  exfalso
  omega

theorem weekday_of_accessors {dt : Date} {m d : Int} (hm : dt.month = .ok m)
    (hd : dt.day = .ok d) :
    dt.weekday = weekday_switch (weekday_calculation dt.year m d) := by
  unfold weekday
  rw [hm, hd]

theorem weekday_nonneg (dt : Date) (h : 0 ≤ dt.total_days_) :
    ∃ m d, dt.month = .ok m ∧ dt.day = .ok d ∧
      0 ≤ weekday_calculation dt.year m d ∧
      0 ≤ Int.tmod (weekday_calculation dt.year m d) 7 ∧
      Int.tmod (weekday_calculation dt.year m d) 7 ≤ 6 ∧
      ∃ wd, dt.weekday = .ok wd := by
  obtain ⟨y, m, d, hy, hc, hy0, _, hm1, hm12, hd1, _, _⟩ := decompose_nonneg dt.total_days_ h
  have hmo := month_of_calculate hc
  have hda := day_of_calculate hc
  have hdd : d - 1 + 1 = d := by omega
  rw [hdd] at hda
  have hyy : dt.year = y := hy
  have hw : 0 ≤ weekday_calculation y m d := by
    rcases weekday_calculation_nonneg y m d hy0 hm1 hm12 hd1 with h1 | h1
    · omega
    · exact h1.2
  obtain ⟨r0, r6, wd, hwd⟩ := weekday_switch_ok _ hw
  refine ⟨m, d, hmo, hda, ?_, ?_, ?_, wd, ?_⟩
  · rw [hyy]; exact hw
  · rw [hyy]; exact r0
  · rw [hyy]; exact r6
  · rw [weekday_of_accessors hmo hda, hyy]; exact hwd

theorem ctor_total_days_nonneg (y m d : Int) (dt : Date) (h : Date.ctor y m d = .ok dt) :
    0 ≤ dt.total_days_ := by
  obtain ⟨hy0, _, hm1, hm12, hd1, _, hdt⟩ := (ctor_ok_iff y m d dt).1 h
  subst hdt
  simp only
  have hmono := days_before_year_mono 0 (le_refl 0) y.toNat
  have hy : (0 : Int) + (y.toNat : Int) = y := by omega
  rw [hy, days_before_year_zero] at hmono
  have hb := days_before_month_nonneg y m hm1 hm12
  omega

end Date

/-! ## Time -/

theorem Time.add_seconds_eq (t : Time) (n : Int) :
    (t.add_seconds n).total_seconds_ = min (max (t.total_seconds_ + n) 0) 86399 := by
  unfold Time.add_seconds
  simp only
  split_ifs <;> simp only <;> omega

theorem Time.add_seconds_range (t : Time) (n : Int) :
    0 ≤ (t.add_seconds n).total_seconds_ ∧ (t.add_seconds n).total_seconds_ ≤ 86399 := by
  rw [Time.add_seconds_eq]
  omega

theorem Time.add_minutes_eq (t : Time) (n : Int) : t.add_minutes n = t.add_seconds (60 * n) := by
  unfold Time.add_minutes
  rw [mul_comm]

theorem Time.add_hours_eq (t : Time) (n : Int) : t.add_hours n = t.add_seconds (3600 * n) := by
  unfold Time.add_hours
  rw [Time.add_minutes_eq]
  congr 1
  ring

theorem Time.call_range (t : Time) (c : TimeCall) :
    0 ≤ (t.call c).total_seconds_ ∧ (t.call c).total_seconds_ ≤ 86399 := by
  cases c with
  | add_seconds n => exact Time.add_seconds_range t n
  | add_minutes n => rw [Time.call, Time.add_minutes_eq]; exact Time.add_seconds_range t _
  | add_hours n => rw [Time.call, Time.add_hours_eq]; exact Time.add_seconds_range t _

theorem Time.calls_range (cs : List TimeCall) : ∀ t : Time,
    0 ≤ t.total_seconds_ ∧ t.total_seconds_ ≤ 86399 →
    0 ≤ (t.calls cs).total_seconds_ ∧ (t.calls cs).total_seconds_ ≤ 86399 := by
  induction cs with
  | nil => intro t ht; exact ht
  | cons c cs ih =>
    intro t _
    exact ih (t.call c) (Time.call_range t c)

theorem Time.time_ctor_ok_iff (h m s : Int) (t : Time) :
    Time.ctor h m s = .ok t ↔
      (0 ≤ h ∧ h ≤ 23 ∧ 0 ≤ m ∧ m ≤ 59 ∧ 0 ≤ s ∧ s ≤ 59 ∧ t = ⟨(h * 60 + m) * 60 + s⟩) := by
  unfold Time.ctor
  by_cases hh : h < 0 ∨ 23 < h
  · rw [check_integer_range_error "hour" hh]
    constructor
    · intro e; exact absurd e (by simp)
    · intro e; omega
  · rw [check_integer_range_of_mem "hour" (by omega) (by omega)]
    by_cases hm : m < 0 ∨ 59 < m
    · rw [check_integer_range_error "minute" hm]
      constructor
      · intro e; exact absurd e (by simp)
      · intro e; omega
    · rw [check_integer_range_of_mem "minute" (by omega) (by omega)]
      by_cases hs : s < 0 ∨ 59 < s
      · rw [check_integer_range_error "second" hs]
        constructor
        · intro e; exact absurd e (by simp)
        · intro e; omega
      · rw [check_integer_range_of_mem "second" (by omega) (by omega)]
        constructor
        · intro e
          injection e with e
          exact ⟨by omega, by omega, by omega, by omega, by omega, by omega, e.symm⟩
        · rintro ⟨_, _, _, _, _, _, e⟩
          rw [e]

theorem Time.ctor_range (h m s : Int) (t : Time) (ht : Time.ctor h m s = .ok t) :
    0 ≤ t.total_seconds_ ∧ t.total_seconds_ ≤ 86399 := by
  obtain ⟨h0, h1, m0, m1, s0, s1, e⟩ := (Time.time_ctor_ok_iff h m s t).1 ht
  subst e
  simp only
  omega

/-! ## Components of a TimeDiff -/

/-- The truncating decomposition of any total: every component is in range, the four share one
sign, and they reassemble to the total. -/
theorem timediff_decompose (t : Int) :
    (-23 ≤ Int.tmod (Int.tdiv t (60 * 60)) 24 ∧ Int.tmod (Int.tdiv t (60 * 60)) 24 ≤ 23) ∧
    (-59 ≤ Int.tmod (Int.tdiv t 60) 60 ∧ Int.tmod (Int.tdiv t 60) 60 ≤ 59) ∧
    (-59 ≤ Int.tmod t 60 ∧ Int.tmod t 60 ≤ 59) ∧
    ((0 ≤ Int.tdiv t (24 * 60 * 60) ∧ 0 ≤ Int.tmod (Int.tdiv t (60 * 60)) 24 ∧
        0 ≤ Int.tmod (Int.tdiv t 60) 60 ∧ 0 ≤ Int.tmod t 60) ∨
      (Int.tdiv t (24 * 60 * 60) ≤ 0 ∧ Int.tmod (Int.tdiv t (60 * 60)) 24 ≤ 0 ∧
        Int.tmod (Int.tdiv t 60) 60 ≤ 0 ∧ Int.tmod t 60 ≤ 0)) ∧
    ((Int.tdiv t (24 * 60 * 60) * 24 + Int.tmod (Int.tdiv t (60 * 60)) 24) * 60
        + Int.tmod (Int.tdiv t 60) 60) * 60 + Int.tmod t 60 = t := by
  have e1 := tdiv_cases t (24 * 60 * 60) (by norm_num)
  have e2 := tdiv_cases t (60 * 60) (by norm_num)
  have e3 := tdiv_cases t 60 (by norm_num)
  have e4 := tmod_cases t 60 (by norm_num)
  have e5 := tmod_cases (Int.tdiv t (60 * 60)) 24 (by norm_num)
  have e6 := tmod_cases (Int.tdiv t 60) 60 (by norm_num)
  generalize Int.tdiv t (24 * 60 * 60) = d at e1 ⊢
  generalize Int.tmod (Int.tdiv t (60 * 60)) 24 = h at e5 ⊢
  generalize Int.tmod (Int.tdiv t 60) 60 = m at e6 ⊢
  generalize Int.tmod t 60 = s at e4 ⊢
  generalize Int.tdiv t (60 * 60) = q at e2 e5
  generalize Int.tdiv t 60 = p at e3 e6
  norm_num at e1 e2 e3
  by_cases ht : 0 ≤ t
  · rw [if_pos ht] at e1 e2 e3 e4
    rw [if_pos (by omega)] at e5 e6
    omega
  · rw [if_neg ht] at e1 e2 e3 e4
    have hq : q ≤ 0 := by omega
    have hp : p ≤ 0 := by omega
    by_cases hq0 : 0 ≤ q
    · by_cases hp0 : 0 ≤ p
      · rw [if_pos hq0] at e5; rw [if_pos hp0] at e6; omega
      · rw [if_pos hq0] at e5; rw [if_neg hp0] at e6; omega
    · by_cases hp0 : 0 ≤ p
      · rw [if_neg hq0] at e5; rw [if_pos hp0] at e6; omega
      · rw [if_neg hq0] at e5; rw [if_neg hp0] at e6; omega

/-- Rebuilding a `TimeDiff` from its own components is accepted and gives it back. -/
theorem TimeDiff.ctor_components (r : TimeDiff) :
    TimeDiff.ctor r.days r.hours r.minutes r.seconds = .ok r := by
  obtain ⟨⟨h1, h2⟩, ⟨m1, m2⟩, ⟨s1, s2⟩, hsign, hsum⟩ := timediff_decompose r.total_seconds_
  unfold TimeDiff.days TimeDiff.hours TimeDiff.minutes TimeDiff.seconds TimeDiff.total_seconds
  rw [TimeDiff.ctor_ok h1 h2 m1 m2 s1 s2 (by omega), hsum]

/-- Rebuilding from the negated components, as `operator-` does, is accepted and negates. -/
theorem TimeDiff.ctor_neg_components (r : TimeDiff) :
    TimeDiff.ctor (-r.days) (-r.hours) (-r.minutes) (-r.seconds) = .ok ⟨-r.total_seconds_⟩ := by
  obtain ⟨⟨h1, h2⟩, ⟨m1, m2⟩, ⟨s1, s2⟩, hsign, hsum⟩ := timediff_decompose r.total_seconds_
  unfold TimeDiff.days TimeDiff.hours TimeDiff.minutes TimeDiff.seconds TimeDiff.total_seconds
  rw [TimeDiff.ctor_ok (by omega) (by omega) (by omega) (by omega) (by omega) (by omega)
    (by omega)]
  congr 2
  omega

theorem TimeDiff.operator_sub_total (a b : TimeDiff) :
    a.operator_sub b = .ok ⟨a.total_seconds_ - b.total_seconds_⟩ := by
  unfold TimeDiff.operator_sub
  rw [TimeDiff.ctor_neg_components]
  simp only
  rw [TimeDiff.operator_add_eq]
  congr 2

/-- Components of the difference of two times of day. -/
theorem timediff_small_components (t : Int) (h0 : -86399 ≤ t) (h1 : t ≤ 86399) :
    Int.tdiv t (24 * 60 * 60) = 0 ∧
      Int.tmod (Int.tdiv t (60 * 60)) 24 = Int.tdiv t (60 * 60) := by
  have e1 := tdiv_cases t (24 * 60 * 60) (by norm_num)
  have e2 := tdiv_cases t (60 * 60) (by norm_num)
  have e5 := tmod_cases (Int.tdiv t (60 * 60)) 24 (by norm_num)
  generalize Int.tdiv t (24 * 60 * 60) = d at e1 ⊢
  generalize Int.tmod (Int.tdiv t (60 * 60)) 24 = h at e5 ⊢
  generalize Int.tdiv t (60 * 60) = q at e2 e5 ⊢
  norm_num at e1 e2
  by_cases ht : 0 ≤ t
  · rw [if_pos ht] at e1 e2
    rw [if_pos (by omega)] at e5
    omega
  · rw [if_neg ht] at e1 e2
    by_cases hq0 : 0 ≤ q
    · rw [if_pos hq0] at e5; omega
    · rw [if_neg hq0] at e5; omega

/-! ## DateTime::add_seconds -/

/-- The instant denoted by a `DateTime`, in seconds since the epoch. -/
theorem DateTime.add_seconds_instant (x : DateTime) (n : Int) :
    86400 * (x.add_seconds n).total_days_ + (x.add_seconds n).total_seconds_
      = 86400 * x.total_days_ + x.total_seconds_ + n := by
  unfold DateTime.add_seconds Date.add_days
  simp only
  have e1 := Int.tmod_add_tdiv (x.total_seconds_ + n) (24 * 60 * 60)
  generalize Int.tdiv (x.total_seconds_ + n) (24 * 60 * 60) = q at e1 ⊢
  generalize Int.tmod (x.total_seconds_ + n) (24 * 60 * 60) = r at e1 ⊢
  split_ifs <;> simp only <;> omega

/-- Away from the negative multiples of a day the stored seconds stay in `[0, 86399]`. -/
theorem DateTime.add_seconds_in_range (x : DateTime) (n : Int)
    (h : -86400 < x.total_seconds_ + n) :
    0 ≤ (x.add_seconds n).total_seconds_ ∧ (x.add_seconds n).total_seconds_ ≤ 86399 := by
  unfold DateTime.add_seconds Date.add_days
  simp only
  have e1 := tmod_cases (x.total_seconds_ + n) (24 * 60 * 60) (by norm_num)
  generalize Int.tdiv (x.total_seconds_ + n) (24 * 60 * 60) = q at e1 ⊢
  generalize Int.tmod (x.total_seconds_ + n) (24 * 60 * 60) = r at e1 ⊢
  norm_num at e1
  split_ifs at e1 ⊢ <;> simp only <;> omega

theorem DateTime.add_days_fields (x : DateTime) (n : Int) :
    (x.add_days n).total_days_ = x.total_days_ + n ∧
      (x.add_days n).total_seconds_ = x.total_seconds_ := by
  unfold DateTime.add_days Date.add_days
  exact ⟨rfl, rfl⟩

/-- Effect of `operator+` with a `TimeDiff`: the time part stays in range and the instant moves
by the total of the `TimeDiff`. -/
theorem DateTime.operator_add_spec (x : DateTime) (td : TimeDiff)
    (h0 : 0 ≤ x.total_seconds_) (h1 : x.total_seconds_ ≤ 86399) :
    (0 ≤ (x.operator_add td).total_seconds_ ∧ (x.operator_add td).total_seconds_ ≤ 86399) ∧
    86400 * (x.operator_add td).total_days_ + (x.operator_add td).total_seconds_
      = 86400 * x.total_days_ + x.total_seconds_ + td.total_seconds_ := by
  obtain ⟨⟨hh1, hh2⟩, ⟨hm1, hm2⟩, ⟨hs1, hs2⟩, _, hsum⟩ := timediff_decompose td.total_seconds_
  unfold DateTime.operator_add DateTime.add_hours DateTime.add_minutes
  unfold TimeDiff.days TimeDiff.hours TimeDiff.minutes TimeDiff.seconds TimeDiff.total_seconds
  generalize Int.tdiv td.total_seconds_ (24 * 60 * 60) = d at hsum ⊢
  generalize Int.tmod (Int.tdiv td.total_seconds_ (60 * 60)) 24 = h at hh1 hh2 hsum ⊢
  generalize Int.tmod (Int.tdiv td.total_seconds_ 60) 60 = m at hm1 hm2 hsum ⊢
  generalize Int.tmod td.total_seconds_ 60 = s at hs1 hs2 hsum ⊢
  obtain ⟨a1, a2⟩ := DateTime.add_days_fields x d
  generalize x.add_days d = x1 at a1 a2 ⊢
  have b1 := DateTime.add_seconds_instant x1 (h * 60 * 60)
  have b2 := DateTime.add_seconds_in_range x1 (h * 60 * 60) (by omega)
  generalize x1.add_seconds (h * 60 * 60) = x2 at b1 b2 ⊢
  have c1 := DateTime.add_seconds_instant x2 (m * 60)
  have c2 := DateTime.add_seconds_in_range x2 (m * 60) (by omega)
  generalize x2.add_seconds (m * 60) = x3 at c1 c2 ⊢
  have d1 := DateTime.add_seconds_instant x3 s
  have d2 := DateTime.add_seconds_in_range x3 s (by omega)
  generalize x3.add_seconds s = x4 at d1 d2 ⊢
  refine ⟨d2, ?_⟩
  omega

/-! ## Order of day counts and of calendar triples -/

namespace Date

/-- Accessors of the date whose day count is the closed form of a valid triple. -/
theorem accessors_of_count (y m d : Int) (hy0 : 0 ≤ y) (hm1 : 1 ≤ m) (hm12 : m ≤ 12)
    (hd1 : 1 ≤ d) (hd2 : d ≤ month_length y m) :
    (Date.mk (days_before_year y + days_before_month y m + (d - 1))).year = y ∧
    (Date.mk (days_before_year y + days_before_month y m + (d - 1))).month = .ok m ∧
    (Date.mk (days_before_year y + days_before_month y m + (d - 1))).day = .ok d := by
  have hc : calculate_month
      (Date.mk (days_before_year y + days_before_month y m + (d - 1))).total_days_
        = .ok (m, d - 1) := calculate_month_valid y m d hy0 hm1 hm12 hd1 hd2
  refine ⟨?_, month_of_calculate hc, ?_⟩
  · rw [year_eq, calculate_year_valid y m d hy0 hm1 hm12 hd1 hd2]
  · rw [day_of_calculate hc]; congr 1; omega

/-- Every non-negative day count is the closed form of the triple its accessors return. -/
theorem accessors_nonneg (a : Date) (h : 0 ≤ a.total_days_) :
    ∃ y m d, a.year = y ∧ a.month = .ok m ∧ a.day = .ok d ∧ 0 ≤ y ∧ 1 ≤ m ∧ m ≤ 12 ∧
      1 ≤ d ∧ d ≤ month_length y m ∧
      days_before_year y + days_before_month y m + (d - 1) = a.total_days_ := by
  obtain ⟨y, m, d, hy, hc, hy0, _, hm1, hm12, hd1, hd2, hsum⟩ := decompose_nonneg a.total_days_ h
  have hda := day_of_calculate hc
  have hdd : d - 1 + 1 = d := by omega
  rw [hdd] at hda
  exact ⟨y, m, d, hy, month_of_calculate hc, hda, hy0, hm1, hm12, hd1, hd2, hsum⟩

/-- For non-negative day counts `operator==` on the triples decides equality of the counts. -/
theorem operator_eq_nonneg (a b : Date) (ha : 0 ≤ a.total_days_) (hb : 0 ≤ b.total_days_) :
    a.operator_eq b = .ok (decide (a.total_days_ = b.total_days_)) := by
  obtain ⟨y1, m1, d1, hy1, hmo1, hda1, _, _, _, _, _, hs1⟩ := accessors_nonneg a ha
  obtain ⟨y2, m2, d2, hy2, hmo2, hda2, _, _, _, _, _, hs2⟩ := accessors_nonneg b hb
  unfold operator_eq
  rw [hy1, hy2, hmo1, hmo2, hda1, hda2]
  simp only
  by_cases hy : y1 = y2
  · rw [if_pos hy]
    by_cases hm : m1 = m2
    · rw [if_pos hm]
      by_cases hd : d1 = d2
      · subst hy hm hd
        have : a.total_days_ = b.total_days_ := hs1.symm.trans hs2
        simp [this]
      · have hne : a.total_days_ ≠ b.total_days_ := by
          intro he
          subst hy hm
          rw [← hs1, ← hs2] at he
          omega
        simp [hd, hne]
    · rw [if_neg hm]
      have hne : a.total_days_ ≠ b.total_days_ := by
        intro he
        have hab : a = b := by cases a; cases b; simp only at he; rw [he]
        rw [hab, hmo2] at hmo1
        injection hmo1 with hinj
        exact hm hinj.symm
      simp [hne]
  · rw [if_neg hy]
    have hne : a.total_days_ ≠ b.total_days_ := by
      intro he
      have hab : a = b := by cases a; cases b; simp only at he; rw [he]
      rw [hab, hy2] at hy1
      exact hy hy1.symm
    simp [hne]

theorem days_before_month_succ (y m : Int) (hm1 : 1 ≤ m) (hm11 : m ≤ 11) :
    days_before_month y (m + 1) = days_before_month y m + month_length y m := by
  interval_cases m <;> norm_num [days_before_month, month_length] <;> ring

theorem days_before_month_last (y : Int) :
    days_before_month y 12 + 31 = days_in_year y := by
  rw [days_in_year_eq_feb, (days_before_month_num y).2.2.2.2.2.2.2.2.2.2.2]
  ring

theorem days_before_month_mono (y m : Int) (hm1 : 1 ≤ m) (k : Nat) (hk : m + 1 + k ≤ 12) :
    days_before_month y m + month_length y m ≤ days_before_month y (m + 1 + k) := by
  induction k with
  | zero =>
    rw [Nat.cast_zero, add_zero, days_before_month_succ y m hm1 (by omega)]
  | succ k ih =>
    have e : m + 1 + ((k + 1 : Nat) : Int) = (m + 1 + k) + 1 := by push_cast; ring
    have hk2 : m + 1 + (k : Int) ≤ 11 := by push_cast at hk; omega
    have hstep := days_before_month_succ y (m + 1 + k) (by omega) hk2
    have hb := (month_length_bounds y (m + 1 + k)).1
    have ih2 := ih (by omega)
    rw [e, hstep]
    generalize days_before_month y (m + 1 + k) = A at ih2 ⊢
    generalize days_before_month y m = B at ih2 ⊢
    generalize month_length y (m + 1 + k) = C at hb ⊢
    generalize month_length y m = D at ih2 ⊢
    omega

/-- The closed-form day count is strictly monotone for the lexicographic order of valid
triples. -/
theorem count_lt_of_lex (y1 m1 d1 y2 m2 d2 : Int) (hy1 : 0 ≤ y1)
    (hm11 : 1 ≤ m1) (hm12 : m1 ≤ 12) (hd12 : d1 ≤ month_length y1 m1)
    (hm21 : 1 ≤ m2) (hm22 : m2 ≤ 12) (hd21 : 1 ≤ d2)
    (hlex : y1 < y2 ∨ (y1 = y2 ∧ (m1 < m2 ∨ (m1 = m2 ∧ d1 < d2)))) :
    days_before_year y1 + days_before_month y1 m1 + (d1 - 1)
      < days_before_year y2 + days_before_month y2 m2 + (d2 - 1) := by
  rcases hlex with hy | ⟨hy, hm | ⟨hm, hd⟩⟩
  · have h1 := day_of_year_lt y1 m1 d1 hm11 hm12 hd12
    have h2 := days_before_year_succ y1 hy1
    have h3 := days_before_year_mono (y1 + 1) (by omega) (y2 - (y1 + 1)).toNat
    have e : y1 + 1 + ((y2 - (y1 + 1)).toNat : Int) = y2 := by omega
    rw [e] at h3
    have h4 := days_before_month_nonneg y2 m2 hm21 hm22
    have h5 : (0 : Int) ≤ 365 * ((y2 - (y1 + 1)).toNat : Int) := by positivity
    generalize days_before_month y1 m1 = A at h1 ⊢
    generalize days_before_month y2 m2 = B at h4 ⊢
    generalize days_before_year (y1 + 1) = C at h2 h3
    generalize days_before_year y1 = E at h2 ⊢
    generalize days_before_year y2 = F at h3 ⊢
    generalize days_in_year y1 = G at h1 h2
    generalize 365 * ((y2 - (y1 + 1)).toNat : Int) = H at h3 h5
    omega
  · subst hy
    have h1 := days_before_month_mono y1 m1 hm11 (m2 - (m1 + 1)).toNat (by omega)
    have e : m1 + 1 + ((m2 - (m1 + 1)).toNat : Int) = m2 := by omega
    rw [e] at h1
    generalize days_before_month y1 m1 = A at h1 ⊢
    generalize days_before_month y1 m2 = B at h1 ⊢
    generalize month_length y1 m1 = C at h1 hd12
    omega
  · subst hy hm
    omega

end Date

/-! ## Comparison operators -/

theorem Date.year_month_day_neg (dt : Date) (h : dt.total_days_ < 0) :
    dt.year = 0 ∧ dt.month = .ok 1 ∧ dt.day = .ok (dt.total_days_ + 1) := by
  have hy : Date.calculate_year dt.total_days_ = (0, dt.total_days_) :=
    Date.calculate_year_loop_neg 0 dt.total_days_ h
  have hc : Date.calculate_month dt.total_days_ = .ok (1, dt.total_days_) := by
    unfold Date.calculate_month
    rw [hy]
    simp only
    rw [Date.calculate_month_loop_unrolled, if_pos (by omega)]
  refine ⟨?_, Date.month_of_calculate hc, Date.day_of_calculate hc⟩
  rw [Date.year_eq, hy]

/-! ## 32 bit arithmetic -/

theorem wrap_int_of_range (x : Int) (h0 : INT_MIN ≤ x) (h1 : x ≤ INT_MAX) : wrap_int x = x := by
  unfold INT_MIN at h0
  unfold INT_MAX at h1
  unfold wrap_int
  omega

theorem wrap_int_range (x : Int) : INT_MIN ≤ wrap_int x ∧ wrap_int x ≤ INT_MAX := by
  unfold INT_MIN INT_MAX wrap_int
  omega

theorem wrap_int_idem (x : Int) : wrap_int (wrap_int x) = wrap_int x := by
  unfold wrap_int
  omega

theorem wrap_int_add_congr (a b v : Int) (h : wrap_int a = wrap_int b) :
    wrap_int (a + v) = wrap_int (b + v) := by
  unfold wrap_int at h ⊢
  omega

/-- The `int` initializer of `TimeDiff` is the reduction of the exact total. -/
theorem timediff_total_int (d h m s : Int) :
    iadd (imul (iadd (imul (iadd (imul d 24) h) 60) m) 60) s
      = wrap_int (((d * 24 + h) * 60 + m) * 60 + s) := by
  unfold iadd imul wrap_int
  omega

theorem TimeDiff.ctor_int_ok {d h m s : Int} (hh1 : -23 ≤ h) (hh2 : h ≤ 23) (hm1 : -59 ≤ m)
    (hm2 : m ≤ 59) (hs1 : -59 ≤ s) (hs2 : s ≤ 59)
    (hsign : ¬ ((d < 0 ∧ (h > 0 ∨ m > 0 ∨ s > 0)) ∨ (d > 0 ∧ (h < 0 ∨ m < 0 ∨ s < 0)))) :
    TimeDiff.ctor_int d h m s = .ok ⟨wrap_int (((d * 24 + h) * 60 + m) * 60 + s)⟩ := by
  unfold TimeDiff.ctor_int
  rw [check_integer_range_of_mem "hour" hh1 hh2, check_integer_range_of_mem "minute" hm1 hm2,
    check_integer_range_of_mem "second" hs1 hs2]
  simp only
  rw [if_neg hsign, timediff_total_int]

theorem TimeDiff.operator_add_int_eq (a b : TimeDiff) :
    a.operator_add_int b = .ok ⟨wrap_int (a.total_seconds_ + b.total_seconds_)⟩ := by
  unfold TimeDiff.operator_add_int
  rw [TimeDiff.ctor_int_ok (by omega) (by omega) (by omega) (by omega) (by omega) (by omega)
    (by omega)]
  simp only [TimeDiff.add_seconds_int, TimeDiff.total_seconds]
  congr 2
  unfold iadd wrap_int
  omega

theorem Date.date_operator_sub_int_eq (a b : Date) :
    a.operator_sub_int b = .ok ⟨wrap_int ((a.total_days_ - b.total_days_) * 86400)⟩ := by
  unfold Date.operator_sub_int
  rw [TimeDiff.ctor_int_ok (by omega) (by omega) (by omega) (by omega) (by omega) (by omega)
    (by omega)]
  simp only [Date.get_total_days]
  congr 2
  unfold isub wrap_int
  omega

theorem Time.time_operator_sub_int_eq (a b : Time)
    (ha0 : 0 ≤ a.total_seconds_) (ha1 : a.total_seconds_ ≤ 86399)
    (hb0 : 0 ≤ b.total_seconds_) (hb1 : b.total_seconds_ ≤ 86399) :
    a.operator_sub_int b = .ok ⟨a.total_seconds_ - b.total_seconds_⟩ := by
  unfold Time.operator_sub_int
  simp only [Time.get_total_seconds]
  have hw : isub a.total_seconds_ b.total_seconds_ = a.total_seconds_ - b.total_seconds_ := by
    unfold isub wrap_int
    omega
  rw [hw]
  obtain ⟨⟨h1, h2⟩, ⟨m1, m2⟩, ⟨s1, s2⟩, _, hsum⟩ :=
    timediff_decompose (a.total_seconds_ - b.total_seconds_)
  obtain ⟨hd, hh⟩ := timediff_small_components (a.total_seconds_ - b.total_seconds_)
    (by omega) (by omega)
  rw [hd, hh] at hsum
  rw [hh] at h1 h2
  rw [TimeDiff.ctor_int_ok h1 h2 m1 m2 s1 s2 (by omega)]
  congr 2
  rw [hsum]
  generalize a.total_seconds_ - b.total_seconds_ = t at *
  unfold wrap_int
  omega

theorem TimeDiff.operator_sub_int_one_day (a : TimeDiff) :
    a.operator_sub_int ⟨86400⟩ = .ok ⟨wrap_int (a.total_seconds_ - 86400)⟩ := by
  unfold TimeDiff.operator_sub_int
  have h1 : ineg (TimeDiff.days ⟨86400⟩) = -1 := by decide
  have h2 : ineg (TimeDiff.hours ⟨86400⟩) = 0 := by decide
  have h3 : ineg (TimeDiff.minutes ⟨86400⟩) = 0 := by decide
  have h4 : ineg (TimeDiff.seconds ⟨86400⟩) = 0 := by decide
  rw [h1, h2, h3, h4]
  rw [TimeDiff.ctor_int_ok (by omega) (by omega) (by omega) (by omega) (by omega) (by omega)
    (by omega)]
  simp only
  rw [TimeDiff.operator_add_int_eq]
  congr 2

/-- On `int`, `DateTime - DateTime` is the elapsed time reduced to the 32 bit range. -/
theorem DateTime.datetime_operator_sub_int_eq (a b : DateTime)
    (ha0 : 0 ≤ a.total_seconds_) (ha1 : a.total_seconds_ ≤ 86399)
    (hb0 : 0 ≤ b.total_seconds_) (hb1 : b.total_seconds_ ≤ 86399) :
    a.operator_sub_int b = .ok ⟨wrap_int ((a.total_days_ - b.total_days_) * 86400
      + (a.total_seconds_ - b.total_seconds_))⟩ := by
  unfold DateTime.operator_sub_int
  rw [Date.date_operator_sub_int_eq, Time.time_operator_sub_int_eq _ _ ha0 ha1 hb0 hb1]
  simp only
  have hone : TimeDiff.ctor_int 1 0 0 0 = .ok ⟨86400⟩ := rfl
  split
  · rw [hone]
    simp only
    rw [TimeDiff.operator_sub_int_one_day, TimeDiff.operator_add_int_eq]
    simp only
    rw [TimeDiff.operator_add_int_eq]
    congr 2
    simp only
    unfold wrap_int
    omega
  · rw [TimeDiff.operator_add_int_eq]
    congr 2
    simp only
    unfold wrap_int
    omega

namespace Date

theorem ctor_loop_int_eq (y : Int) (n : Nat) : ∀ (i b c v : Int), wrap_int b = b →
    wrap_int b = wrap_int c → ctor_loop y n i c = .ok v →
    ctor_loop_int y n i b = .ok (wrap_int v) := by
  induction n with
  | zero =>
    intro i b c v hb hbc hv
    unfold ctor_loop at hv
    injection hv with hv
    unfold ctor_loop_int
    rw [← hv, ← hbc, hb]
  | succ n ih =>
    intro i b c v hb hbc hv
    unfold ctor_loop at hv
    unfold ctor_loop_int
    cases hd : days_in_month y (i + 1) with
    | error e =>
      rw [hd] at hv
      exact absurd hv (by simp)
    | ok u =>
      rw [hd] at hv
      simp only at hv ⊢
      exact ih (i + 1) (iadd b u) (c + u) v (by unfold iadd; exact wrap_int_idem _)
        (by unfold iadd; rw [wrap_int_idem]; exact wrap_int_add_congr b c u hbc) hv

end Date

namespace Date

/-- The `int` constructor stores the exact day count reduced to the 32 bit range. -/
theorem ctor_int_valid (y m d : Int) (hy0 : 0 ≤ y) (hy1 : y ≤ INT_MAX) (hm1 : 1 ≤ m)
    (hm12 : m ≤ 12) (hd1 : 1 ≤ d) (hd2 : d ≤ month_length y m) :
    Date.ctor_int y m d
      = .ok ⟨wrap_int (days_before_year y + days_before_month y m + (d - 1))⟩ := by
  unfold Date.ctor_int
  rw [check_integer_range_of_mem "year" hy0 hy1, check_integer_range_of_mem "month" hm1 hm12]
  simp only
  rw [days_in_month_valid y m hm1 hm12]
  simp only
  rw [check_integer_range_of_mem "day" hd1 hd2]
  simp only
  have hloop := ctor_loop_eq y m
    (d - 1 + y * 365 + Int.tdiv y 4 - Int.tdiv y 100 + Int.tdiv y 400
      + (if is_leapyear y = true then 0 else 1)) hm1 hm12
  have hb : wrap_int (iadd (iadd (isub (iadd (iadd (isub d 1) (imul y 365)) (Int.tdiv y 4))
        (Int.tdiv y 100)) (Int.tdiv y 400)) (if is_leapyear y = true then 0 else 1))
      = iadd (iadd (isub (iadd (iadd (isub d 1) (imul y 365)) (Int.tdiv y 4))
        (Int.tdiv y 100)) (Int.tdiv y 400)) (if is_leapyear y = true then 0 else 1) := by
    generalize (iadd (isub (iadd (iadd (isub d 1) (imul y 365)) (Int.tdiv y 4))
        (Int.tdiv y 100)) (Int.tdiv y 400)) = p
    unfold iadd
    exact wrap_int_idem _
  have hbc : wrap_int (iadd (iadd (isub (iadd (iadd (isub d 1) (imul y 365)) (Int.tdiv y 4))
        (Int.tdiv y 100)) (Int.tdiv y 400)) (if is_leapyear y = true then 0 else 1))
      = wrap_int (d - 1 + y * 365 + Int.tdiv y 4 - Int.tdiv y 100 + Int.tdiv y 400
        + (if is_leapyear y = true then 0 else 1)) := by
    generalize (if is_leapyear y = true then (0 : Int) else 1) = adj
    generalize Int.tdiv y 4 = q4
    generalize Int.tdiv y 100 = q100
    generalize Int.tdiv y 400 = q400
    unfold iadd isub imul wrap_int
    omega
  rw [ctor_loop_int_eq y (m - 1).toNat 0 _ _ _ hb hbc hloop]
  simp only [days_before_year]
  congr 3
  ring

/-- Where the exact day count fits in an `int`, both constructors build the same date. -/
theorem ctor_int_of_ctor (y m d : Int) (ideal : Date) (h : Date.ctor y m d = .ok ideal)
    (hr : ideal.total_days_ ≤ INT_MAX) : Date.ctor_int y m d = .ok ideal := by
  have hnn := ctor_total_days_nonneg y m d ideal h
  obtain ⟨hy0, hy1, hm1, hm12, hd1, hd2, he⟩ := (ctor_ok_iff y m d ideal).1 h
  rw [ctor_int_valid y m d hy0 hy1 hm1 hm12 hd1 hd2]
  subst he
  simp only at hr hnn
  rw [wrap_int_of_range _ (by unfold INT_MIN; omega) hr]

theorem next_int_eq (x : Date) (h0 : INT_MIN ≤ x.total_days_ + 1)
    (h1 : x.total_days_ + 1 ≤ INT_MAX) : x.next_int = ⟨x.total_days_ + 1⟩ := by
  unfold next_int add_days_int iadd
  rw [wrap_int_of_range _ h0 h1]

/-- Accessors of the day after a valid triple, on the exact day count. -/
theorem successor_accessors (y m d : Int) (hy0 : 0 ≤ y) (hm1 : 1 ≤ m) (hm12 : m ≤ 12)
    (hd1 : 1 ≤ d) (hd2 : d ≤ month_length y m) :
    (d < month_length y m →
      (Date.mk (days_before_year y + days_before_month y m + (d - 1) + 1)).year = y ∧
      (Date.mk (days_before_year y + days_before_month y m + (d - 1) + 1)).month = .ok m ∧
      (Date.mk (days_before_year y + days_before_month y m + (d - 1) + 1)).day
        = .ok (d + 1)) ∧
    (d = month_length y m → m < 12 →
      (Date.mk (days_before_year y + days_before_month y m + (d - 1) + 1)).year = y ∧
      (Date.mk (days_before_year y + days_before_month y m + (d - 1) + 1)).month
        = .ok (m + 1) ∧
      (Date.mk (days_before_year y + days_before_month y m + (d - 1) + 1)).day = .ok 1) ∧
    (m = 12 → d = 31 →
      (Date.mk (days_before_year y + days_before_month y m + (d - 1) + 1)).year = y + 1 ∧
      (Date.mk (days_before_year y + days_before_month y m + (d - 1) + 1)).month = .ok 1 ∧
      (Date.mk (days_before_year y + days_before_month y m + (d - 1) + 1)).day = .ok 1) := by
  refine ⟨?_, ?_, ?_⟩
  · intro hlt
    have e : days_before_year y + days_before_month y m + (d - 1) + 1
        = days_before_year y + days_before_month y m + (d + 1 - 1) := by ring
    rw [e]
    exact accessors_of_count y m (d + 1) hy0 hm1 hm12 (by omega) (by omega)
  · intro he hlt
    have e : days_before_year y + days_before_month y m + (d - 1) + 1
        = days_before_year y + days_before_month y (m + 1) + (1 - 1) := by
      rw [days_before_month_succ y m hm1 (by omega), he]
      ring
    rw [e]
    exact accessors_of_count y (m + 1) 1 hy0 (by omega) (by omega) (by decide)
      (by have := (month_length_bounds y (m + 1)).1; omega)
  · intro he hd
    subst he hd
    have e : days_before_year y + days_before_month y 12 + (31 - 1) + 1
        = days_before_year (y + 1) + days_before_month (y + 1) 1 + (1 - 1) := by
      rw [days_before_year_succ y hy0, ← days_before_month_last y,
        (days_before_month_num (y + 1)).1]
      ring
    rw [e]
    exact accessors_of_count (y + 1) 1 1 (by omega) (by decide) (by decide) (by decide)
      (by have := (month_length_bounds (y + 1) 1).1; omega)

end Date

/-! ## The claims -/

/-- C1. Date round trip: for every triple `(y, m, d)` the `Date` constructor accepts, the
iterative accessors of the constructed date give back `year() = y`, `month() = m` and
`day() = d`. -/
theorem date_round_trip (y m d : Int) (dt : Date) (h : Date.ctor y m d = .ok dt) :
    dt.year = y ∧ dt.month = .ok m ∧ dt.day = .ok d :=
  Date.accessors_of_ctor y m d dt h

theorem date_round_trip_witness :
    Date.ctor 2024 2 29 = .ok ⟨739310⟩ ∧
      (Date.mk 739310).year = 2024 ∧ (Date.mk 739310).month = .ok 2 ∧
      (Date.mk 739310).day = .ok 29 :=
  ⟨rfl, date_round_trip 2024 2 29 ⟨739310⟩ rfl⟩

/-- C2. Inverse round trip: `Date(0,1,1)` has day count 0, and for every `int` `n ≥ 0` the date
`e` reached from it by `add_days(n)` decomposes into a triple the constructor accepts, and the
date constructed from that triple has day count `n`. -/
theorem add_days_round_trip (n : Int) (hn0 : 0 ≤ n) (hn1 : n ≤ INT_MAX) :
    ∃ epoch, Date.ctor 0 1 1 = .ok epoch ∧ epoch.get_total_days = 0 ∧
      ∃ m d, (epoch.add_days n).month = .ok m ∧ (epoch.add_days n).day = .ok d ∧
        ∃ dt, Date.ctor (epoch.add_days n).year m d = .ok dt ∧ dt.get_total_days = n := by
  refine ⟨⟨0⟩, rfl, rfl, ?_⟩
  have he : (Date.mk 0).add_days n = ⟨n⟩ := by
    unfold Date.add_days
    congr 1
    simp only
    omega
  rw [he]
  obtain ⟨y, m, d, hy, hc, hy0, hyn, hm1, hm12, hd1, hd2, hsum⟩ := Date.decompose_nonneg n hn0
  have hc2 : Date.calculate_month (Date.mk n).total_days_ = .ok (m, d - 1) := hc
  have hda := Date.day_of_calculate hc2
  have hdd : d - 1 + 1 = d := by omega
  rw [hdd] at hda
  have hyy : (Date.mk n).year = y := hy
  refine ⟨m, d, Date.month_of_calculate hc2, hda, ⟨n⟩, ?_, rfl⟩
  rw [hyy, Date.ctor_valid y m d hy0 (by omega) hm1 hm12 hd1 hd2, hsum]

theorem add_days_round_trip_witness :
    ∃ epoch, Date.ctor 0 1 1 = .ok epoch ∧ epoch.get_total_days = 0 ∧
      ∃ m d, (epoch.add_days 739310).month = .ok m ∧ (epoch.add_days 739310).day = .ok d ∧
        ∃ dt, Date.ctor (epoch.add_days 739310).year m d = .ok dt ∧
          dt.get_total_days = 739310 :=
  add_days_round_trip 739310 (by decide) (by decide)

/-- C3. Date construction validation: for `int` arguments the constructor fails with a range
error exactly when `y < 0`, or `m` is outside `[1,12]`, or `d` is outside
`[1, days_in_month(y, m)]`; it fails in no other way, so `days_in_months` is never read with a
month outside `[1,12]`; `days_in_month(y, 2)` is 29 exactly in leap years and 28 otherwise;
`Date(2023,2,29)` fails and `Date(2024,2,29)` succeeds. -/
theorem date_ctor_validation (y m d : Int) (hy : y ≤ INT_MAX) :
    ((∃ name lo hi, Date.ctor y m d = .error (.range name lo hi)) ↔
      (y < 0 ∨ m < 1 ∨ 12 < m ∨ ∃ k, Date.days_in_month y m = .ok k ∧ (d < 1 ∨ k < d))) ∧
    (∀ e, Date.ctor y m d = .error e → ∃ name lo hi, e = .range name lo hi) ∧
    Date.days_in_month y 2 = .ok
      (if (Int.tmod y 4 = 0 ∧ Int.tmod y 100 ≠ 0) ∨ Int.tmod y 400 = 0 then 29 else 28) ∧
    Date.ctor 2023 2 29 = .error (.range "day" 1 28) ∧
    (∃ dt, Date.ctor 2024 2 29 = .ok dt) := by
  have key : (y < 0 ∨ INT_MAX < y ∨ m < 1 ∨ 12 < m ∨ d < 1 ∨ Date.month_length y m < d) ∨
      ∃ dt, Date.ctor y m d = .ok dt := by
    by_cases hv : y < 0 ∨ INT_MAX < y ∨ m < 1 ∨ 12 < m ∨ d < 1 ∨ Date.month_length y m < d
    · exact Or.inl hv
    · right
      exact ⟨_, Date.ctor_valid y m d (by omega) (by omega) (by omega) (by omega) (by omega)
        (by omega)⟩
  refine ⟨⟨?_, ?_⟩, ?_, ?_, rfl, ⟨_, rfl⟩⟩
  · rintro ⟨name, lo, hi, he⟩
    rcases key with hv | ⟨dt, hdt⟩
    · by_cases hm : m < 1 ∨ 12 < m
      · omega
      · have hk := Date.days_in_month_valid y m (by omega) (by omega)
        by_cases hy0 : y < 0
        · exact Or.inl hy0
        · exact Or.inr (Or.inr (Or.inr ⟨_, hk, by omega⟩))
    · rw [hdt] at he
      exact absurd he (by simp)
  · intro hc
    apply Date.ctor_invalid
    rcases hc with h | h | h | ⟨k, hk, h⟩
    · omega
    · omega
    · omega
    · obtain ⟨_, _, hkv⟩ := (Date.days_in_month_ok_iff y m k).1 hk
      omega
  · intro e he
    rcases key with hv | ⟨dt, hdt⟩
    · obtain ⟨name, lo, hi, hr⟩ := Date.ctor_invalid y m d hv
      rw [hr] at he
      injection he with he
      exact ⟨name, lo, hi, he.symm⟩
    · rw [hdt] at he
      exact absurd he (by simp)
  · rw [Date.days_in_month_feb]
    unfold Date.feb Date.is_leapyear
    congr 1
    simp only [Bool.or_eq_true, Bool.and_eq_true, beq_iff_eq, bne_iff_ne, ne_eq]

theorem date_ctor_validation_witness :
    (∃ name lo hi, Date.ctor 2023 2 29 = .error (.range name lo hi)) ↔
      ((2023 : Int) < 0 ∨ (2 : Int) < 1 ∨ (12 : Int) < 2 ∨
        ∃ k, Date.days_in_month 2023 2 = .ok k ∧ ((29 : Int) < 1 ∨ k < 29)) :=
  (date_ctor_validation 2023 2 29 (by decide)).1

/-- C4 (the code departs from the claim). `DateTime::add_seconds` does not carry by floor
division when the sum of the stored seconds and `n` is a negative multiple of 86400: from
`DateTime(2024,3,1,0,0,0)`, `add_seconds(-86400)` moves the date back two days and leaves
86400 stored seconds, not one day and 0 seconds; and so from midnight of every day count.
`add_seconds(-1)` on the same value does give `DateTime(2024,2,29,23,59,59)`. -/
theorem datetime_add_seconds_exact_day :
    ∃ a b c, DateTime.ctor 2024 3 1 0 0 0 = .ok a ∧ DateTime.ctor 2024 2 29 0 0 0 = .ok b ∧
      DateTime.ctor 2024 2 29 23 59 59 = .ok c ∧
      a.total_seconds_ + (-86400) = 86400 * (-1) + 0 ∧
      (a.add_seconds (-86400)).total_days_ = a.total_days_ - 2 ∧
      (a.add_seconds (-86400)).total_seconds_ = 86400 ∧
      a.add_seconds (-86400) ≠ b ∧
      a.add_seconds (-1) = c ∧
      ∀ D : Int, (DateTime.mk ⟨D⟩ ⟨0⟩).add_seconds (-86400) = ⟨⟨D - 2⟩, ⟨86400⟩⟩ := by
  refine ⟨⟨⟨739311⟩, ⟨0⟩⟩, ⟨⟨739310⟩, ⟨0⟩⟩, ⟨⟨739310⟩, ⟨86399⟩⟩, rfl, rfl, rfl, by decide,
    by decide, by decide, by decide, by decide, ?_⟩
  intro D
  unfold DateTime.add_seconds Date.add_days
  simp only
  rw [if_neg (by decide), if_pos (by decide)]
  have h1 : Int.tdiv (0 + -86400) (24 * 60 * 60) = -1 := by decide
  have h2 : Int.tmod (0 + -86400) (24 * 60 * 60) = 0 := by decide
  rw [h1, h2]
  congr 2

/-- C5, refuted as stated: `DateTime(2024,3,1,0,0,0) - DateTime(1950,1,1,0,0,0)` has both time
parts in `[0, 86399]`, the elapsed time is 2340403200 seconds, and the `int` total of the
returned `TimeDiff` is -1954564096. -/
theorem datetime_sub_elapsed_overflow :
    ∃ a b td, DateTime.ctor_int 2024 3 1 0 0 0 = .ok a ∧
      DateTime.ctor_int 1950 1 1 0 0 0 = .ok b ∧
      (0 ≤ a.get_total_seconds ∧ a.get_total_seconds ≤ 86399) ∧
      (0 ≤ b.get_total_seconds ∧ b.get_total_seconds ≤ 86399) ∧
      a.operator_sub_int b = .ok td ∧ td.total_seconds = -1954564096 ∧
      (a.get_total_days - b.get_total_days) * 86400
        + (a.get_total_seconds - b.get_total_seconds) = 2340403200 ∧
      td.total_seconds ≠ (a.get_total_days - b.get_total_days) * 86400
        + (a.get_total_seconds - b.get_total_seconds) :=
  ⟨⟨⟨739311⟩, ⟨0⟩⟩, ⟨⟨712223⟩, ⟨0⟩⟩, ⟨-1954564096⟩, by rfl, by rfl, by decide, by decide,
    by rfl, by rfl, by decide, by decide⟩

/-- C5, amended. For two `DateTime` values whose time parts are in `[0, 86399]` and whose
elapsed time `(Da - Db) * 86400 + (sa - sb)` lies in the `int` range, `a - b` raises no error
and its `total_seconds()` is that elapsed time, with or without the borrow; for all such
values the total is the elapsed time reduced to the 32 bit range; and
`DateTime(2024,3,1,0,0,0) - DateTime(2024,2,29,23,59,59) == TimeDiff(0,0,0,1)`. -/
theorem datetime_sub_elapsed_in_range (a b : DateTime)
    (ha0 : 0 ≤ a.get_total_seconds) (ha1 : a.get_total_seconds ≤ 86399)
    (hb0 : 0 ≤ b.get_total_seconds) (hb1 : b.get_total_seconds ≤ 86399)
    (hlo : INT_MIN ≤ (a.get_total_days - b.get_total_days) * 86400
      + (a.get_total_seconds - b.get_total_seconds))
    (hhi : (a.get_total_days - b.get_total_days) * 86400
      + (a.get_total_seconds - b.get_total_seconds) ≤ INT_MAX) :
    (∃ td, a.operator_sub_int b = .ok td ∧
      td.total_seconds
        = (a.get_total_days - b.get_total_days) * 86400
          + (a.get_total_seconds - b.get_total_seconds)) ∧
    (∃ x y one r, DateTime.ctor_int 2024 3 1 0 0 0 = .ok x ∧
      DateTime.ctor_int 2024 2 29 23 59 59 = .ok y ∧ TimeDiff.ctor_int 0 0 0 1 = .ok one ∧
      x.operator_sub_int y = .ok r ∧ r.operator_eq one = true) := by
  unfold Date.get_total_days Time.get_total_seconds at *
  refine ⟨⟨_, DateTime.datetime_operator_sub_int_eq a b ha0 ha1 hb0 hb1, ?_⟩, ?_⟩
  · unfold TimeDiff.total_seconds
    exact wrap_int_of_range _ hlo hhi
  · exact ⟨⟨⟨739311⟩, ⟨0⟩⟩, ⟨⟨739310⟩, ⟨86399⟩⟩, ⟨1⟩, ⟨1⟩, by rfl, by rfl, by rfl, by rfl,
      by rfl⟩

theorem datetime_sub_elapsed_in_range_witness :
    ∃ td, (DateTime.mk ⟨739311⟩ ⟨0⟩).operator_sub_int (DateTime.mk ⟨739310⟩ ⟨86399⟩) = .ok td ∧
      td.total_seconds
        = ((DateTime.mk ⟨739311⟩ ⟨0⟩).get_total_days
            - (DateTime.mk ⟨739310⟩ ⟨86399⟩).get_total_days) * 86400
          + ((DateTime.mk ⟨739311⟩ ⟨0⟩).get_total_seconds
            - (DateTime.mk ⟨739310⟩ ⟨86399⟩).get_total_seconds) :=
  (datetime_sub_elapsed_in_range ⟨⟨739311⟩, ⟨0⟩⟩ ⟨⟨739310⟩, ⟨86399⟩⟩ (by decide) (by decide)
    (by decide) (by decide) (by decide) (by decide)).1

/-- C6 (the code departs from the claim). The sign check of `TimeDiff::TimeDiff` compares only
`days` with the other three components: `TimeDiff(0, 1, -1, 0)` has hours and minutes of
opposite signs and is accepted, with total 3540 seconds.  The constructor fails exactly on an
out-of-range hour, minute or second or when `days` and one of the other components have
strictly opposite signs; `TimeDiff(1, -1, 0, 0)` fails. -/
theorem timediff_ctor_sign_check :
    TimeDiff.ctor 0 1 (-1) 0 = .ok ⟨3540⟩ ∧
    TimeDiff.ctor 1 (-1) 0 0 = .error .same_sign ∧
    ∀ d h m s : Int, (∃ e, TimeDiff.ctor d h m s = .error e) ↔
      (h < -23 ∨ 23 < h ∨ m < -59 ∨ 59 < m ∨ s < -59 ∨ 59 < s
        ∨ (d < 0 ∧ (h > 0 ∨ m > 0 ∨ s > 0)) ∨ (d > 0 ∧ (h < 0 ∨ m < 0 ∨ s < 0))) :=
  ⟨rfl, rfl, TimeDiff.ctor_error_iff⟩

/-- C7. `TimeDiff` component round trip: with `|h| ≤ 23`, `|m| ≤ 59`, `|s| ≤ 59` and the four
components all `≥ 0` or all `≤ 0`, `TimeDiff(d, h, m, s)` is accepted and its truncating
decomposition returns `days() = d`, `hours() = h`, `minutes() = m`, `seconds() = s`. -/
theorem timediff_round_trip (d h m s : Int)
    (hh1 : -23 ≤ h) (hh2 : h ≤ 23) (hm1 : -59 ≤ m) (hm2 : m ≤ 59) (hs1 : -59 ≤ s) (hs2 : s ≤ 59)
    (hsign : (0 ≤ d ∧ 0 ≤ h ∧ 0 ≤ m ∧ 0 ≤ s) ∨ (d ≤ 0 ∧ h ≤ 0 ∧ m ≤ 0 ∧ s ≤ 0)) :
    ∃ td, TimeDiff.ctor d h m s = .ok td ∧
      td.days = d ∧ td.hours = h ∧ td.minutes = m ∧ td.seconds = s :=
  ⟨_, TimeDiff.ctor_ok hh1 hh2 hm1 hm2 hs1 hs2 (by omega),
    timediff_components d h m s hh1 hh2 hm1 hm2 hs1 hs2 hsign⟩

theorem timediff_round_trip_witness :
    ∃ td, TimeDiff.ctor (-2) (-3) (-4) (-5) = .ok td ∧
      td.days = -2 ∧ td.hours = -3 ∧ td.minutes = -4 ∧ td.seconds = -5 :=
  timediff_round_trip (-2) (-3) (-4) (-5) (by decide) (by decide) (by decide) (by decide)
    (by decide) (by decide) (Or.inr (by decide))

/-- C8 (the code departs from the claim). For January and February of year 0 `Date::weekday`
applies the truncating `%` and `/` to the adjusted year `-1` and is off by one day:
`Date(0,2,29)` and its `next()`, `Date(0,3,1)`, are both WEDNESDAY, and `Date(0,1,1)`, whose
day count differs from that of `Date(2000,1,1)` (a SATURDAY) by a multiple of 7, is SUNDAY. -/
theorem weekday_year_zero :
    ∃ x, Date.ctor 0 2 29 = .ok x ∧ x.weekday = .ok .WEDNESDAY ∧
      x.next.weekday = .ok .WEDNESDAY ∧ Weekday.succ .WEDNESDAY ≠ .WEDNESDAY ∧
      Date.ctor 0 3 1 = .ok x.next ∧
      ∃ e s, Date.ctor 0 1 1 = .ok e ∧ Date.ctor 2000 1 1 = .ok s ∧
        s.weekday = .ok .SATURDAY ∧ e.weekday = .ok .SUNDAY ∧
        (s.get_total_days - e.get_total_days) % 7 = 0 := by
  have a1 := Date.accessors_of_ctor 0 2 29 ⟨59⟩ rfl
  have a2 := Date.accessors_of_ctor 0 3 1 ⟨60⟩ rfl
  have a3 := Date.accessors_of_ctor 0 1 1 ⟨0⟩ rfl
  have a4 := Date.accessors_of_ctor 2000 1 1 ⟨730485⟩ rfl
  refine ⟨⟨59⟩, rfl, ?_, ?_, by decide, rfl, ⟨0⟩, ⟨730485⟩, rfl, rfl, ?_, ?_, by decide⟩
  · rw [Date.weekday_of_accessors a1.2.1 a1.2.2, a1.1]; rfl
  · have hn : (Date.mk 59).next = ⟨60⟩ := rfl
    rw [hn, Date.weekday_of_accessors a2.2.1 a2.2.2, a2.1]; rfl
  · rw [Date.weekday_of_accessors a4.2.1 a4.2.2, a4.1]; rfl
  · rw [Date.weekday_of_accessors a3.2.1 a3.2.2, a3.1]; rfl

/-- C9, refuted as stated: `Date(5879610,7,12)` passes the validation of the constructor, its
`int` day count is `INT_MIN`, the accessors give year 0, month 1 and day -2147483647,
`weekday_calculation` is -2147483612 with remainder -1, and `weekday()` takes the default
branch. -/
theorem weekday_error_after_overflow :
    ∃ x, Date.ctor_int 5879610 7 12 = .ok x ∧ x.get_total_days = INT_MIN ∧
      x.year = 0 ∧ x.month = .ok 1 ∧ x.day = .ok (-2147483647) ∧
      Date.weekday_calculation 0 1 (-2147483647) = -2147483612 ∧
      Int.tmod (Date.weekday_calculation 0 1 (-2147483647)) 7 = -1 ∧
      x.weekday = .error .invalid_weekday := by
  obtain ⟨hy, hm, hd⟩ := Date.year_month_day_neg ⟨-2147483648⟩ (by decide)
  refine ⟨⟨-2147483648⟩, by rfl, by rfl, hy, hm, hd, by decide, by decide, ?_⟩
  rw [Date.weekday_of_accessors hm hd, hy]
  rfl

/-- C9, amended. The error path of `Date::weekday` is unreachable for every date whose day
count is in `[0, INT_MAX]`: the month and day are decomposed without error,
`weekday_calculation` is non-negative, its remainder modulo 7 lies in `0..6` and `weekday()`
returns a weekday.  Every date built by the constructor from a triple whose exact day count
fits in an `int` is such a date; for January and February of year 0 the value is `day + 35`
and `day + 38`. -/
theorem weekday_error_unreachable_in_range (y m d : Int) (ideal : Date)
    (h : Date.ctor y m d = .ok ideal) (hr : ideal.get_total_days ≤ INT_MAX) :
    (∃ x, Date.ctor_int y m d = .ok x ∧ 0 ≤ x.get_total_days ∧ x.get_total_days ≤ INT_MAX ∧
      ∃ mo da, x.month = .ok mo ∧ x.day = .ok da ∧
        0 ≤ Date.weekday_calculation x.year mo da ∧
        0 ≤ Int.tmod (Date.weekday_calculation x.year mo da) 7 ∧
        Int.tmod (Date.weekday_calculation x.year mo da) 7 ≤ 6 ∧
        ∃ wd, x.weekday = .ok wd) ∧
    (∀ dt : Date, 0 ≤ dt.get_total_days →
      ∃ mo da, dt.month = .ok mo ∧ dt.day = .ok da ∧
        0 ≤ Date.weekday_calculation dt.year mo da ∧
        0 ≤ Int.tmod (Date.weekday_calculation dt.year mo da) 7 ∧
        Int.tmod (Date.weekday_calculation dt.year mo da) 7 ≤ 6 ∧
        ∃ wd, dt.weekday = .ok wd) ∧
    (∀ day : Int, Date.weekday_calculation 0 1 day = day + 35 ∧
      Date.weekday_calculation 0 2 day = day + 38) := by
  have hnn := Date.ctor_total_days_nonneg y m d ideal h
  refine ⟨⟨ideal, Date.ctor_int_of_ctor y m d ideal h hr, hnn, hr,
    Date.weekday_nonneg ideal hnn⟩, Date.weekday_nonneg, ?_⟩
  intro day
  unfold Date.weekday_calculation
  simp only
  rw [if_pos (by decide), if_pos (by decide), if_pos (by decide), if_pos (by decide)]
  have e1 : Int.tdiv (13 * ((1 : Int) + 12 + 1)) 5 = 36 := by decide
  have e2 : Int.tdiv (13 * ((2 : Int) + 12 + 1)) 5 = 39 := by decide
  have e3 : Int.tmod ((0 : Int) - 1) 100 = -1 := by decide
  have e4 : Int.tdiv ((0 : Int) - 1) 100 = 0 := by decide
  have e5 : Int.tdiv (-1 : Int) 4 = 0 := by decide
  have e6 : Int.tdiv (0 : Int) 4 = 0 := by decide
  rw [e1, e2, e3, e4, e5, e6]
  constructor <;> ring

theorem weekday_error_unreachable_in_range_witness :
    ∃ x, Date.ctor_int 0 2 29 = .ok x ∧ 0 ≤ x.get_total_days ∧ x.get_total_days ≤ INT_MAX ∧
      ∃ mo da, x.month = .ok mo ∧ x.day = .ok da ∧
        0 ≤ Date.weekday_calculation x.year mo da ∧
        0 ≤ Int.tmod (Date.weekday_calculation x.year mo da) 7 ∧
        Int.tmod (Date.weekday_calculation x.year mo da) 7 ≤ 6 ∧
        ∃ wd, x.weekday = .ok wd :=
  (weekday_error_unreachable_in_range 0 2 29 ⟨59⟩ (by rfl) (by decide)).1

/-- C10. `Time::add_seconds` clamps into `[0, 86399]` and never wraps. -/
theorem time_add_clamps (h m s : Int) (t : Time) (ht : Time.ctor h m s = .ok t) :
    (0 ≤ t.total_seconds_ ∧ t.total_seconds_ ≤ 86399) ∧
    (∀ n : Int, (t.add_seconds n).total_seconds_ = min (max (t.total_seconds_ + n) 0) 86399) ∧
    (∀ n : Int, t.add_minutes n = t.add_seconds (60 * n)) ∧
    (∀ n : Int, t.add_hours n = t.add_seconds (3600 * n)) ∧
    (∀ cs : List TimeCall,
      0 ≤ (t.calls cs).total_seconds_ ∧ (t.calls cs).total_seconds_ ≤ 86399) ∧
    (∃ late, Time.ctor 23 59 59 = .ok late ∧ late.add_seconds 1000 = late) ∧
    (∃ early, Time.ctor 0 0 0 = .ok early ∧ early.add_seconds (-1000) = early) :=
  ⟨Time.ctor_range h m s t ht, Time.add_seconds_eq t, Time.add_minutes_eq t, Time.add_hours_eq t,
    fun cs => Time.calls_range cs t (Time.ctor_range h m s t ht),
    ⟨⟨86399⟩, rfl, by decide⟩, ⟨⟨0⟩, rfl, by decide⟩⟩

theorem time_add_clamps_witness :
    Time.ctor 12 34 56 = .ok ⟨45296⟩ ∧
      ((Time.mk 45296).add_seconds 50000).total_seconds_
        = min (max ((Time.mk 45296).total_seconds_ + 50000) 0) 86399 :=
  ⟨rfl, (time_add_clamps 12 34 56 ⟨45296⟩ rfl).2.1 50000⟩

/-- C12. `TimeDiff` arithmetic combines raw totals and never fails: for all `a` and `b`,
`a + b` and `a - b` return a value, with totals `a.total + b.total` and `a.total - b.total`;
the `TimeDiff` that `operator-` rebuilds from the negated components of `b` is accepted and
has total `-b.total`. -/
theorem timediff_arith_totals (a b : TimeDiff) :
    (∃ r, a.operator_add b = .ok r ∧ r.total_seconds = a.total_seconds + b.total_seconds) ∧
    (∃ r, a.operator_sub b = .ok r ∧ r.total_seconds = a.total_seconds - b.total_seconds) ∧
    (∃ n, TimeDiff.ctor (-b.days) (-b.hours) (-b.minutes) (-b.seconds) = .ok n ∧
      n.total_seconds = -b.total_seconds) :=
  ⟨⟨_, TimeDiff.operator_add_eq a b, rfl⟩, ⟨_, TimeDiff.operator_sub_total a b, rfl⟩,
    ⟨_, TimeDiff.ctor_neg_components b, rfl⟩⟩

/-- C13, refuted as stated: there are no accepted `a` and `b` for which the components of
`a + b` or of `a - b` are rejected by the constructor. -/
theorem timediff_arith_rejected_refuted :
    ¬ ∃ (a b r : TimeDiff), (∃ d h m s, TimeDiff.ctor d h m s = .ok a) ∧
      (∃ d h m s, TimeDiff.ctor d h m s = .ok b) ∧
      (a.operator_add b = .ok r ∨ a.operator_sub b = .ok r) ∧
      ∃ e, TimeDiff.ctor r.days r.hours r.minutes r.seconds = .error e := by
  rintro ⟨a, b, r, _, _, _, e, he⟩
  rw [TimeDiff.ctor_components r] at he
  exact absurd he (by simp)

/-- C13, amended. The components of a result of `TimeDiff` arithmetic are never rejected: for
all `a` and `b`, the components of `r = a + b` and of `r = a - b` are in range and share one
sign, and `TimeDiff(r.days(), r.hours(), r.minutes(), r.seconds())` is accepted and equals
`r`. -/
theorem timediff_arith_components_accepted (a b : TimeDiff) :
    ∃ r1 r2, a.operator_add b = .ok r1 ∧ a.operator_sub b = .ok r2 ∧
      TimeDiff.ctor r1.days r1.hours r1.minutes r1.seconds = .ok r1 ∧
      TimeDiff.ctor r2.days r2.hours r2.minutes r2.seconds = .ok r2 ∧
      (∀ r : TimeDiff,
        (-23 ≤ r.hours ∧ r.hours ≤ 23) ∧ (-59 ≤ r.minutes ∧ r.minutes ≤ 59) ∧
        (-59 ≤ r.seconds ∧ r.seconds ≤ 59) ∧
        ((0 ≤ r.days ∧ 0 ≤ r.hours ∧ 0 ≤ r.minutes ∧ 0 ≤ r.seconds) ∨
          (r.days ≤ 0 ∧ r.hours ≤ 0 ∧ r.minutes ≤ 0 ∧ r.seconds ≤ 0))) := by
  refine ⟨_, _, TimeDiff.operator_add_eq a b, TimeDiff.operator_sub_total a b,
    TimeDiff.ctor_components _, TimeDiff.ctor_components _, ?_⟩
  intro r
  obtain ⟨hh, hm, hs, hsign, _⟩ := timediff_decompose r.total_seconds_
  exact ⟨hh, hm, hs, hsign⟩

/-- C14. The date decomposition is total: for every day count, negative ones included,
`year()`, `month()` and `day()` return a value, the month is in `[1, 12]` and no read of
`days_in_months` leaves the table.  For a negative count they return year 0, month 1 and
day `count + 1`, as for `Date(0,1,1).prev()`. -/
theorem date_decomposition_total (dt : Date) :
    (∃ m d, dt.month = .ok m ∧ dt.day = .ok d ∧ 1 ≤ m ∧ m ≤ 12) ∧
    (dt.get_total_days < 0 →
      dt.year = 0 ∧ dt.month = .ok 1 ∧ dt.day = .ok (dt.get_total_days + 1)) ∧
    (∃ epoch, Date.ctor 0 1 1 = .ok epoch ∧ epoch.prev.year = 0 ∧
      epoch.prev.month = .ok 1 ∧ epoch.prev.day = .ok 0) := by
  refine ⟨?_, Date.year_month_day_neg dt, ⟨⟨0⟩, rfl, ?_⟩⟩
  · by_cases h : 0 ≤ dt.total_days_
    · obtain ⟨y, m, d, _, hm, hd, _, hm1, hm12, _, _, _⟩ := Date.accessors_nonneg dt h
      exact ⟨m, d, hm, hd, hm1, hm12⟩
    · obtain ⟨_, hm, hd⟩ := Date.year_month_day_neg dt (by omega)
      exact ⟨1, _, hm, hd, by decide, by decide⟩
  · exact Date.year_month_day_neg ⟨-1⟩ (by decide)

theorem date_decomposition_total_witness :
    (Date.mk (-100)).year = 0 ∧ (Date.mk (-100)).month = .ok 1 ∧
      (Date.mk (-100)).day = .ok ((Date.mk (-100)).get_total_days + 1) :=
  (date_decomposition_total ⟨-100⟩).2.1 (by decide)

/-- C15. Time subtraction: for `a` and `b` with stored seconds in `[0, 86399]`, `a - b` raises
no error and yields `r` with `r.days() = 0`, `r.total_seconds()` the difference of the stored
seconds, and `r.hours()`, `r.minutes()`, `r.seconds()` its truncating decomposition. -/
theorem time_sub_timediff (a b : Time)
    (ha0 : 0 ≤ a.get_total_seconds) (ha1 : a.get_total_seconds ≤ 86399)
    (hb0 : 0 ≤ b.get_total_seconds) (hb1 : b.get_total_seconds ≤ 86399) :
    ∃ r, a.operator_sub b = .ok r ∧ r.days = 0 ∧
      r.total_seconds = a.get_total_seconds - b.get_total_seconds ∧
      r.hours = Int.tdiv (a.get_total_seconds - b.get_total_seconds) (60 * 60) ∧
      r.minutes = Int.tmod (Int.tdiv (a.get_total_seconds - b.get_total_seconds) 60) 60 ∧
      r.seconds = Int.tmod (a.get_total_seconds - b.get_total_seconds) 60 := by
  unfold Time.get_total_seconds at *
  obtain ⟨hd, hh⟩ := timediff_small_components (a.total_seconds_ - b.total_seconds_)
    (by omega) (by omega)
  exact ⟨_, Time.time_operator_sub_eq a b ha0 ha1 hb0 hb1, hd, rfl, hh, rfl, rfl⟩

theorem time_sub_timediff_witness :
    ∃ r, (Time.mk 100).operator_sub (Time.mk 4000) = .ok r ∧ r.days = 0 ∧
      r.total_seconds = (Time.mk 100).get_total_seconds - (Time.mk 4000).get_total_seconds ∧
      r.hours = Int.tdiv ((Time.mk 100).get_total_seconds - (Time.mk 4000).get_total_seconds)
        (60 * 60) ∧
      r.minutes = Int.tmod (Int.tdiv
        ((Time.mk 100).get_total_seconds - (Time.mk 4000).get_total_seconds) 60) 60 ∧
      r.seconds
        = Int.tmod ((Time.mk 100).get_total_seconds - (Time.mk 4000).get_total_seconds) 60 :=
  time_sub_timediff ⟨100⟩ ⟨4000⟩ (by decide) (by decide) (by decide) (by decide)

/-- C17. Adding a `TimeDiff` and subtracting the original `DateTime` is a round trip: for
every `dt` with time part in `[0, 86399]` and every `td`, `dt + td` has its time part in
`[0, 86399]` and `(dt + td) - dt` returns a `TimeDiff` equal to `td`. -/
theorem datetime_add_sub_round_trip (dt : DateTime) (td : TimeDiff)
    (h0 : 0 ≤ dt.get_total_seconds) (h1 : dt.get_total_seconds ≤ 86399) :
    (0 ≤ (dt.operator_add td).get_total_seconds ∧
      (dt.operator_add td).get_total_seconds ≤ 86399) ∧
    ∃ r, (dt.operator_add td).operator_sub dt = .ok r ∧ r.operator_eq td = true := by
  unfold Time.get_total_seconds at *
  obtain ⟨hr, hi⟩ := DateTime.operator_add_spec dt td h0 h1
  refine ⟨hr, _, DateTime.datetime_operator_sub_eq _ dt hr.1 hr.2 h0 h1, ?_⟩
  unfold TimeDiff.operator_eq TimeDiff.total_seconds
  simp only [beq_iff_eq]
  omega

theorem datetime_add_sub_round_trip_witness :
    (0 ≤ ((DateTime.mk ⟨739311⟩ ⟨0⟩).operator_add ⟨-1⟩).get_total_seconds ∧
      ((DateTime.mk ⟨739311⟩ ⟨0⟩).operator_add ⟨-1⟩).get_total_seconds ≤ 86399) ∧
    ∃ r, ((DateTime.mk ⟨739311⟩ ⟨0⟩).operator_add ⟨-1⟩).operator_sub
        (DateTime.mk ⟨739311⟩ ⟨0⟩) = .ok r ∧ r.operator_eq ⟨-1⟩ = true :=
  datetime_add_sub_round_trip ⟨⟨739311⟩, ⟨0⟩⟩ ⟨-1⟩ (by decide) (by decide)

/-- C18. `DateTime::add_seconds` moves the denoted instant by exactly `n` seconds: for all
integers `D`, `s` and `n`, the new day count and stored seconds satisfy
`86400 * D' + s' = 86400 * D + s + n`, in each of the three branches. -/
theorem datetime_add_seconds_instant (D s n : Int) :
    86400 * ((DateTime.mk ⟨D⟩ ⟨s⟩).add_seconds n).get_total_days
        + ((DateTime.mk ⟨D⟩ ⟨s⟩).add_seconds n).get_total_seconds
      = 86400 * D + s + n :=
  DateTime.add_seconds_instant ⟨⟨D⟩, ⟨s⟩⟩ n

/-- C19, refuted as stated: `Date(5879610,7,11)` and `Date(5879610,7,12)` both pass the
validation of the constructor and the first triple is the smaller one, but the `int` day
counts are `INT_MAX` and `INT_MIN`, so `Date(5879610,7,11) < Date(5879610,7,12)` is false. -/
theorem date_order_overflow :
    ∃ a b, Date.ctor_int 5879610 7 11 = .ok a ∧ Date.ctor_int 5879610 7 12 = .ok b ∧
      a.get_total_days = INT_MAX ∧ b.get_total_days = INT_MIN ∧
      ((5879610 : Int) = 5879610 ∧ (7 : Int) = 7 ∧ (11 : Int) < 12) ∧
      a.operator_lt b = false ∧ b.operator_lt a = true :=
  ⟨⟨2147483647⟩, ⟨-2147483648⟩, by rfl, by rfl, by rfl, by rfl, by decide, by decide,
    by decide⟩

/-- C19, amended. The day count preserves calendar order inside the `int` range: for triples
the constructor accepts whose exact day counts fit in an `int`,
`Date(y1, m1, d1) < Date(y2, m2, d2)` iff the first triple is lexicographically smaller, and
equal day counts only come from equal triples. -/
theorem date_order_is_lexicographic_in_range (y1 m1 d1 y2 m2 d2 : Int) (ia ib : Date)
    (ha : Date.ctor y1 m1 d1 = .ok ia) (hb : Date.ctor y2 m2 d2 = .ok ib)
    (hra : ia.get_total_days ≤ INT_MAX) (hrb : ib.get_total_days ≤ INT_MAX) :
    ∃ a b, Date.ctor_int y1 m1 d1 = .ok a ∧ Date.ctor_int y2 m2 d2 = .ok b ∧
      (a.operator_lt b = true ↔
        (y1 < y2 ∨ (y1 = y2 ∧ (m1 < m2 ∨ (m1 = m2 ∧ d1 < d2))))) ∧
      (a.get_total_days = b.get_total_days → y1 = y2 ∧ m1 = m2 ∧ d1 = d2) := by
  refine ⟨ia, ib, Date.ctor_int_of_ctor y1 m1 d1 ia ha hra,
    Date.ctor_int_of_ctor y2 m2 d2 ib hb hrb, ?_⟩
  obtain ⟨hy1, _, hm11, hm12, hd11, hd12, hta⟩ := (Date.ctor_ok_iff y1 m1 d1 ia).1 ha
  obtain ⟨hy2, _, hm21, hm22, hd21, hd22, htb⟩ := (Date.ctor_ok_iff y2 m2 d2 ib).1 hb
  have hfwd := Date.count_lt_of_lex y1 m1 d1 y2 m2 d2 hy1 hm11 hm12 hd12 hm21 hm22 hd21
  have hbwd := Date.count_lt_of_lex y2 m2 d2 y1 m1 d1 hy2 hm21 hm22 hd22 hm11 hm12 hd11
  have hsame : y1 = y2 ∧ m1 = m2 ∧ d1 = d2 →
      Date.days_before_year y1 + Date.days_before_month y1 m1 + (d1 - 1)
        = Date.days_before_year y2 + Date.days_before_month y2 m2 + (d2 - 1) := by
    rintro ⟨e1, e2, e3⟩
    rw [e1, e2, e3]
  subst hta htb
  clear ha hb hd12 hd22 hra hrb
  unfold Date.operator_lt Date.get_total_days
  simp only [decide_eq_true_eq]
  generalize Date.days_before_year y1 + Date.days_before_month y1 m1 + (d1 - 1) = A
    at hfwd hbwd hsame ⊢
  generalize Date.days_before_year y2 + Date.days_before_month y2 m2 + (d2 - 1) = B
    at hfwd hbwd hsame ⊢
  have htri : (y1 < y2 ∨ (y1 = y2 ∧ (m1 < m2 ∨ (m1 = m2 ∧ d1 < d2)))) ∨
      (y1 = y2 ∧ m1 = m2 ∧ d1 = d2) ∨
      (y2 < y1 ∨ (y2 = y1 ∧ (m2 < m1 ∨ (m2 = m1 ∧ d2 < d1)))) := by omega
  constructor
  · constructor
    · intro hlt
      rcases htri with h | h | h
      · exact h
      · have := hsame h; omega
      · have := hbwd h; omega
    · exact hfwd
  · intro heq
    rcases htri with h | h | h
    · have := hfwd h; omega
    · exact h
    · have := hbwd h; omega

theorem date_order_is_lexicographic_in_range_witness :
    ∃ a b, Date.ctor_int 2024 2 29 = .ok a ∧ Date.ctor_int 2024 3 1 = .ok b ∧
      (a.operator_lt b = true ↔
        ((2024 : Int) < 2024 ∨ ((2024 : Int) = 2024 ∧
          ((2 : Int) < 3 ∨ ((2 : Int) = 3 ∧ (29 : Int) < 1))))) ∧
      (a.get_total_days = b.get_total_days →
        (2024 : Int) = 2024 ∧ (2 : Int) = 3 ∧ (29 : Int) = 1) :=
  date_order_is_lexicographic_in_range 2024 2 29 2024 3 1 ⟨739310⟩ ⟨739311⟩ (by rfl) (by rfl)
    (by decide) (by decide)

/-- C20, refuted as stated: `Date(5879610,7,11)` is accepted by the constructor and
`11 < days_in_month(5879610, 7) = 31`, but its `int` day count is `INT_MAX`, `next()` wraps
to `INT_MIN`, and the accessors of the result give year 0, month 1 and day -2147483647, not
`(5879610, 7, 12)`. -/
theorem next_overflow :
    ∃ x, Date.ctor_int 5879610 7 11 = .ok x ∧ Date.days_in_month 5879610 7 = .ok 31 ∧
      x.get_total_days = INT_MAX ∧ x.next_int.get_total_days = INT_MIN ∧
      x.next_int.year = 0 ∧ x.next_int.month = .ok 1 ∧ x.next_int.day = .ok (-2147483647) ∧
      x.next_int.year ≠ 5879610 := by
  obtain ⟨hy, hm, hd⟩ := Date.year_month_day_neg ⟨-2147483648⟩ (by decide)
  have hn : (Date.mk 2147483647).next_int = ⟨-2147483648⟩ := by rfl
  refine ⟨⟨2147483647⟩, by rfl, by rfl, by rfl, by rfl, ?_, ?_, ?_, ?_⟩
  · rw [hn]; exact hy
  · rw [hn]; exact hm
  · rw [hn]; exact hd
  · rw [hn, hy]; decide

/-- C20, amended. The method `next()` is the calendar successor inside the `int` range: for a
triple `(y, m, d)` the constructor accepts whose exact day count is below `INT_MAX`, with
`k = days_in_month(y, m)`, the accessors of `Date(y, m, d).next()` return `(y, m, d + 1)`
when `d < k`, `(y, m + 1, 1)` when `d = k` and `m < 12`, and `(y + 1, 1, 1)` when `m = 12`
and `d = 31`; `Date(2024,2,28).next() == Date(2024,2,29)` and
`Date(2023,2,28).next() == Date(2023,3,1)`. -/
theorem next_is_calendar_successor_in_range (y m d k : Int) (ideal : Date)
    (hx : Date.ctor y m d = .ok ideal) (hr : ideal.get_total_days < INT_MAX)
    (hk : Date.days_in_month y m = .ok k) :
    ∃ x, Date.ctor_int y m d = .ok x ∧
      (d < k → x.next_int.year = y ∧ x.next_int.month = .ok m ∧
        x.next_int.day = .ok (d + 1)) ∧
      (d = k → m < 12 →
        x.next_int.year = y ∧ x.next_int.month = .ok (m + 1) ∧ x.next_int.day = .ok 1) ∧
      (m = 12 → d = 31 →
        x.next_int.year = y + 1 ∧ x.next_int.month = .ok 1 ∧ x.next_int.day = .ok 1) ∧
      (∃ p q, Date.ctor_int 2024 2 28 = .ok p ∧ Date.ctor_int 2024 2 29 = .ok q ∧
        p.next_int.operator_eq q = .ok true) ∧
      (∃ p q, Date.ctor_int 2023 2 28 = .ok p ∧ Date.ctor_int 2023 3 1 = .ok q ∧
        p.next_int.operator_eq q = .ok true) := by
  unfold Date.get_total_days at hr
  have hnn := Date.ctor_total_days_nonneg y m d ideal hx
  unfold Date.get_total_days at hnn
  have hci := Date.ctor_int_of_ctor y m d ideal hx (by omega)
  have hnext := Date.next_int_eq ideal (by unfold INT_MIN; omega) (by omega)
  obtain ⟨hy0, _, hm1, hm12, hd1, hd2, hxe⟩ := (Date.ctor_ok_iff y m d ideal).1 hx
  obtain ⟨_, _, hkv⟩ := (Date.days_in_month_ok_iff y m k).1 hk
  obtain ⟨s1, s2, s3⟩ := Date.successor_accessors y m d hy0 hm1 hm12 hd1 hd2
  refine ⟨ideal, hci, ?_, ?_, ?_, ?_, ?_⟩
  · intro hlt
    rw [hnext, hxe]
    exact s1 (by rw [← hkv]; exact hlt)
  · intro he hlt
    rw [hnext, hxe]
    exact s2 (by rw [← hkv]; exact he) hlt
  · intro he hd
    rw [hnext, hxe]
    exact s3 he hd
  · refine ⟨⟨739309⟩, ⟨739310⟩, by rfl, by rfl, ?_⟩
    have hn : (Date.mk 739309).next_int = ⟨739310⟩ := by rfl
    rw [hn]
    exact Date.operator_eq_nonneg ⟨739310⟩ ⟨739310⟩ (by decide) (by decide)
  · refine ⟨⟨738944⟩, ⟨738945⟩, by rfl, by rfl, ?_⟩
    have hn : (Date.mk 738944).next_int = ⟨738945⟩ := by rfl
    rw [hn]
    exact Date.operator_eq_nonneg ⟨738945⟩ ⟨738945⟩ (by decide) (by decide)

theorem next_is_calendar_successor_in_range_witness :
    ∃ x, Date.ctor_int 2023 12 31 = .ok x ∧
      (x.next_int.year = 2023 + 1 ∧ x.next_int.month = .ok 1 ∧ x.next_int.day = .ok 1) :=
  match next_is_calendar_successor_in_range 2023 12 31 31 ⟨739250⟩ (by rfl) (by decide)
    (by rfl) with
  | ⟨x, h1, _, _, h4, _⟩ => ⟨x, h1, h4 rfl rfl⟩

end CppDatetime
